import Mathlib

set_option autoImplicit false
set_option maxRecDepth 8000

/-!
Verification development for the LLM-Disability-Dashboard backend
(`app/services`): a shallow embedding of the cache layer (`cache.py`),
the cache-key derivation (`llm_client.py`), the consistency validator
(`consistency_validator.py`), the adaptive difficulty engine
(`adaptive_difficulty.py`) and the workflow orchestrator guards and state
sanitizer (`orchestrator.py`), together with theorems settling the spec
claims about them.

Modelling conventions:
* Python floats are modelled as rationals (`Rat`); all arithmetic in the
  embedded code paths is exact at the precision the claims exercise.
* JSON-like Python values are modelled by the inductive type `PyVal`;
  Python dicts become association lists in insertion order (Python dicts
  preserve insertion order), sets become lists in iteration order.
* Mutation-free translation: `copy.deepcopy` is the identity on immutable
  `PyVal` values, and stateful methods become functions returning the
  updated state.
-/

namespace Dashboard

/-- JSON-like Python runtime values: strings, ints, floats, bools, `None`,
lists (and tuples), string-keyed dicts (association lists in insertion
order), and sets (element lists in iteration order). -/
inductive PyVal where
  | vstr (s : String)
  | vint (n : Int)
  | vfloat (q : Rat)
  | vbool (b : Bool)
  | vnone
  | vlist (xs : List PyVal)
  | vdict (es : List (String × PyVal))
  | vset (xs : List PyVal)

/-- Python truthiness (`bool(v)`): empty strings/collections, zero numbers,
`False` and `None` are falsy. -/
def PyVal.truthy : PyVal → Bool
  | .vstr s => !s.isEmpty
  | .vint n => n != 0
  | .vfloat q => q != 0
  | .vbool b => b
  | .vnone => false
  | .vlist xs => !xs.isEmpty
  | .vdict es => !es.isEmpty
  | .vset xs => !xs.isEmpty

/-- Python `v is None` test. -/
def PyVal.isNone : PyVal → Bool
  | .vnone => true
  | _ => false

/-- Python `isinstance(v, dict)` test. -/
def PyVal.isDict : PyVal → Bool
  | .vdict _ => true
  | _ => false

/-- First-match association-list lookup, the model of Python
`d.get(k)` / `d[k]` on an (insertion-ordered, duplicate-free) dict. -/
def lookupKey (es : List (String × PyVal)) (k : String) : Option PyVal :=
  match es with
  | [] => none
  | (k2, v) :: rest => if k2 = k then some v else lookupKey rest k

/-- Python `d.get(k, default)`. -/
def getD (es : List (String × PyVal)) (k : String) (v0 : PyVal) : PyVal :=
  (lookupKey es k).getD v0

end Dashboard

namespace Dashboard

/-- Decimal digit to character. -/
def digitChar (d : Nat) : Char := Char.ofNat (48 + d)

/-- Decimal rendering of a natural number (fuel-based long division;
the fuel argument is always sufficient at call sites). -/
def natChars : Nat → Nat → List Char
  | 0, n => [digitChar n]
  | fuel + 1, n => if n < 10 then [digitChar n] else natChars fuel (n / 10) ++ [digitChar (n % 10)]

/-- Decimal rendering of a natural number. -/
def natStr (n : Nat) : String := String.mk (natChars n n)

/-- Python `str` of an int. -/
def intStr (n : Int) : String :=
  if n < 0 then String.mk ('-' :: natChars n.natAbs n.natAbs) else natStr n.natAbs

/-- Fractional decimal digits of `r / den` (long division, stopping at a
zero remainder or after `fuel` digits). -/
def fracChars : Nat → Nat → Nat → List Char
  | 0, _, _ => []
  | _ + 1, 0, _ => []
  | fuel + 1, r, den => digitChar (r * 10 / den) :: fracChars fuel (r * 10 % den) den

/-- Python `str`/`repr` of a float, modelled on exact decimal values: an
integral value renders as `n.0`, other values render their decimal
expansion (up to 20 fractional digits; every float the embedded code paths
print is an exact short decimal, where this agrees with CPython). -/
def floatRepr (q : Rat) : String :=
  let n := q.num.natAbs
  let sign := if q.num < 0 then "-" else ""
  let ip := n / q.den
  let r := n % q.den
  if r = 0 then sign ++ natStr ip ++ ".0"
  else sign ++ natStr ip ++ "." ++ String.mk (fracChars 20 r q.den)

/-- ASCII lower-casing of one character (Python `str.lower`, restricted to
the ASCII range exercised by the validator keyword catalogs). -/
def lowerChar (c : Char) : Char :=
  if 65 ≤ c.toNat ∧ c.toNat ≤ 90 then Char.ofNat (c.toNat + 32) else c

/-- Python `str.lower()`. -/
def toLowerStr (s : String) : String := String.mk (s.data.map lowerChar)

/-- Python whitespace characters stripped by `str.strip()` / `float()`. -/
def isPyWs (c : Char) : Bool :=
  c = Char.ofNat 32 ∨ c = Char.ofNat 9 ∨ c = Char.ofNat 10 ∨ c = Char.ofNat 13 ∨
    c = Char.ofNat 11 ∨ c = Char.ofNat 12

/-- Python `str.strip()`. -/
def pyStrip (s : String) : String :=
  String.mk (((s.data.dropWhile isPyWs).reverse.dropWhile isPyWs).reverse)

/-- Whether `needle` is a prefix of `hay` (character lists). -/
def isPrefixChars : List Char → List Char → Bool
  | [], _ => true
  | _ :: _, [] => false
  | n :: ns, h :: hs => n = h && isPrefixChars ns hs

/-- Whether `needle` occurs inside `hay` (character lists). -/
def containsChars (hay needle : List Char) : Bool :=
  match hay with
  | [] => needle.isEmpty
  | _ :: rest => isPrefixChars needle hay || containsChars rest needle

/-- Python substring test `needle in hay`. -/
def strContains (hay needle : String) : Bool := containsChars hay.data needle.data

/-- Numeric value of a list of decimal digit characters. -/
def digitsVal (cs : List Char) : Nat :=
  cs.foldl (fun a c => a * 10 + (c.toNat - 48)) 0

/-- Model of CPython `float(s)` on decimal literals: optional sign,
integer/fraction digits, optional exponent, surrounding whitespace.
Special values (`inf`, `nan`) and digit-group underscores are outside the
model (they never arise on the embedded code paths) and return `none`. -/
def pyFloat (s : String) : Option Rat :=
  let cs := (s.data.dropWhile isPyWs).reverse.dropWhile isPyWs |>.reverse
  let (sg, cs1) : Rat × List Char :=
    match cs with
    | '-' :: rest => (-1, rest)
    | '+' :: rest => (1, rest)
    | _ => (1, cs)
  let ip := cs1.takeWhile Char.isDigit
  let cs2 := cs1.dropWhile Char.isDigit
  let (fp, cs3) : List Char × List Char :=
    match cs2 with
    | '.' :: rest => (rest.takeWhile Char.isDigit, rest.dropWhile Char.isDigit)
    | _ => ([], cs2)
  if ip.isEmpty ∧ fp.isEmpty then none
  else
    let mantissa : Rat := sg * ((digitsVal ip : Rat) + (digitsVal fp : Rat) / ((10 : Rat) ^ fp.length))
    match cs3 with
    | [] => some mantissa
    | e :: rest =>
      if e = 'e' ∨ e = 'E' then
        let (esg, rest1) : Bool × List Char :=
          match rest with
          | '-' :: r => (true, r)
          | '+' :: r => (false, r)
          | _ => (false, rest)
        let ed := rest1.takeWhile Char.isDigit
        if ed.isEmpty ∨ ¬(rest1.dropWhile Char.isDigit).isEmpty then none
        else if esg then some (mantissa / ((10 : Rat) ^ digitsVal ed))
        else some (mantissa * ((10 : Rat) ^ digitsVal ed))
      else none

/-- Length of the leftmost-greedy match of the Python regex
`[-+]?[0-9]*\.?[0-9]+` at the head of `cs`; `0` when there is no match. -/
def numTokenLen (cs : List Char) : Nat :=
  match cs with
  | [] => 0
  | c :: rest =>
    let (sg, after) : Nat × List Char :=
      if c = '-' ∨ c = '+' then (1, rest) else (0, cs)
    let d1 := (after.takeWhile Char.isDigit).length
    match after.drop d1 with
    | '.' :: r2 =>
      let d2 := (r2.takeWhile Char.isDigit).length
      if 0 < d2 then sg + d1 + 1 + d2
      else if 0 < d1 then sg + d1 else 0
    | _ => if 0 < d1 then sg + d1 else 0

/-- Fuel-driven scan for `re.findall` with the number pattern: at each
position take the leftmost-greedy match and continue after it, otherwise
advance one character. -/
def scanNumbersAux : Nat → List Char → List String
  | 0, _ => []
  | _ + 1, [] => []
  | fuel + 1, c :: rest =>
    let n := numTokenLen (c :: rest)
    if n = 0 then scanNumbersAux fuel rest
    else String.mk ((c :: rest).take n) :: scanNumbersAux fuel ((c :: rest).drop n)

/-- Model of `re.findall(r"[-+]?[0-9]*\.?[0-9]+", s)`
(`consistency_validator.py` uses this pattern for every numeric-token
extraction). -/
def scanNumbers (s : String) : List String := scanNumbersAux s.data.length s.data

end Dashboard

namespace Dashboard

/-- Single-quote character used by Python `repr` of strings. -/
def squote : String := String.mk [Char.ofNat 39]

mutual

/-- Python `repr(v)` (escape sequences inside strings are not modelled;
the embedded inputs contain none). -/
def pyRepr : PyVal → String
  | .vstr s => squote ++ s ++ squote
  | .vint n => intStr n
  | .vfloat q => floatRepr q
  | .vbool b => if b then ("True") else ("False")
  | .vnone => ("None")
  | .vlist xs => ("[") ++ pyReprJoin xs ++ ("]")
  | .vdict es => ("\x7b") ++ pyReprEntries es ++ ("\x7d")
  | .vset xs => if xs.isEmpty then ("set()") else ("\x7b") ++ pyReprJoin xs ++ ("\x7d")

/-- Comma-joined reprs of the elements of a list value. -/
def pyReprJoin : List PyVal → String
  | [] => ("")
  | [x] => pyRepr x
  | x :: y :: rest => pyRepr x ++ (", ") ++ pyReprJoin (y :: rest)

/-- Comma-joined reprs of the entries of a dict value. -/
def pyReprEntries : List (String × PyVal) → String
  | [] => ("")
  | [(k, v)] => squote ++ k ++ squote ++ (": ") ++ pyRepr v
  | (k, v) :: e :: rest =>
    squote ++ k ++ squote ++ (": ") ++ pyRepr v ++ (", ") ++ pyReprEntries (e :: rest)

end

/-- Python `str(v)`: the identity on strings, `repr` otherwise. -/
def pyStr : PyVal → String
  | .vstr s => s
  | .vint n => intStr n
  | .vfloat q => floatRepr q
  | .vbool b => if b then ("True") else ("False")
  | .vnone => ("None")
  | v => pyRepr v

/-- Python `" ".join(xs)`. -/
def joinSpace : List String → String
  | [] => ("")
  | [x] => x
  | x :: y :: rest => x ++ (" ") ++ joinSpace (y :: rest)

end Dashboard

namespace Dashboard.Validator

open Dashboard

/-- Model of `re.match(r"^\s*(-?\d+)\s*\/\s*(-?\d+)\s*$", str(s).strip())`
followed by the float division in `_parse_fraction`; a zero denominator
yields `None`. -/
def parseFraction (s : String) : Option Rat :=
  let cs1 := (pyStrip s).data.dropWhile isPyWs
  let (neg1, cs2) : Bool × List Char :=
    match cs1 with
    | '-' :: r => (true, r)
    | _ => (false, cs1)
  let d1 := cs2.takeWhile Char.isDigit
  let cs3 := (cs2.dropWhile Char.isDigit).dropWhile isPyWs
  if d1.isEmpty then none
  else
    match cs3 with
    | '/' :: cs4 =>
      let cs5 := cs4.dropWhile isPyWs
      let (neg2, cs6) : Bool × List Char :=
        match cs5 with
        | '-' :: r => (true, r)
        | _ => (false, cs5)
      let d2 := cs6.takeWhile Char.isDigit
      let cs7 := (cs6.dropWhile Char.isDigit).dropWhile isPyWs
      if d2.isEmpty ∨ ¬cs7.isEmpty then none
      else if (digitsVal d2 : Rat) = 0 then none
      else
        let num : Rat := (if neg1 then -1 else 1) * (digitsVal d1 : Rat)
        let den : Rat := (if neg2 then -1 else 1) * (digitsVal d2 : Rat)
        some (num / den)
    | _ => none

/-- Model of `_parse_percent`: strip, require a trailing percent sign, keep
only digits, dots and minus signs from the rest, parse as float, divide by
100. -/
def parsePercent (s : String) : Option Rat :=
  let t := (pyStrip s).data
  if t.getLast? = some '%' then
    let u := t.dropLast.filter (fun c => c.isDigit || c = '.' || c = '-')
    (pyFloat (String.mk u)).map (fun q => q / 100)
  else none

/-- The `float(s)` attempt at the head of `_parse_numeric_like`: numeric
types convert directly, strings are parsed, other types raise (`none`). -/
def tryFloatVal : PyVal → Option Rat
  | .vstr s => pyFloat s
  | .vint n => some (n : Rat)
  | .vfloat q => some q
  | .vbool b => some (if b then 1 else 0)
  | _ => none

/-- Model of `_parse_numeric_like`: `None` fails; then direct float
conversion, `a/b` fraction, `N%` percentage, and finally the last number
found in `str(s)`. -/
def parseNumericLike (v : PyVal) : Option Rat :=
  match v with
  | .vnone => none
  | v =>
    match tryFloatVal v with
    | some q => some q
    | none =>
      let t := pyStr v
      match parseFraction t with
      | some q => some q
      | none =>
        match parsePercent t with
        | some q => some q
        | none => (scanNumbers t).getLast?.bind pyFloat

/-- The student attempt mapping (a Python dict with string keys). -/
abbrev Attempt := List (String × PyVal)

/-- The `steps_to_solve` list of an attempt
(`student_attempt.get("steps_to_solve", [])`).  A present non-list value
would be iterated/indexed differently by Python (or raise); such attempts
are excluded by `WFAttempt` below. -/
def attemptSteps (a : Attempt) : List PyVal :=
  match lookupKey a ("steps_to_solve") with
  | some (.vlist xs) => xs
  | _ => []

/-- Well-formedness of an attempt mapping: `steps_to_solve`, when present,
is a list (as the code and spec assume). -/
def WFAttempt (a : Attempt) : Bool :=
  match lookupKey a ("steps_to_solve") with
  | none => true
  | some (.vlist _) => true
  | some _ => false

/-- The thought-process fallback tail of `extract_final_answer`. -/
def extractFromThought (a : Attempt) : String :=
  let tp := getD a ("thoughtprocess") (.vstr (""))
  if tp.truthy then
    match parseNumericLike tp with
    | some q => floatRepr q
    | none => ("")
  else ("")

/-- Model of `extract_final_answer`: prefer the `final_answer` field
(sanitized to a numeric-like string when possible), else the last
numeric-like token of the last solution step, else a numeric-like token in
the thought process, else the empty string. -/
def extract_final_answer (a : Attempt) : String :=
  if a.isEmpty then ("")
  else
    match lookupKey a ("final_answer") with
    | some fa =>
      let raw := pyStrip (pyStr fa)
      match parseNumericLike (.vstr raw) with
      | some q => floatRepr q
      | none => raw
    | none =>
      match (attemptSteps a).getLast? with
      | some last =>
        match parseNumericLike (.vstr (pyStr last)) with
        | some q => floatRepr q
        | none => extractFromThought a
      | none => extractFromThought a

/-- Result record of `check_step_answer_consistency`; the informational
`details` string is omitted, `step_answers` is absent (`none`) on the
early incomplete return. -/
structure StepCheckResult where
  score : Rat
  status : String
  step_answers : Option (List String)

/-- Model of `check_step_answer_consistency`. -/
def check_step_answer_consistency (a : Attempt) (student_answer : String) : StepCheckResult :=
  let steps := attemptSteps a
  if steps.isEmpty ∨ student_answer.isEmpty then
    { score := 0, status := ("incomplete"), step_answers := none }
  else
    let student_val := parseNumericLike (.vstr student_answer)
    let step_answers := steps.flatMap (fun st => scanNumbers (pyStr st))
    let final_answer_found :=
      match student_val with
      | some v =>
        step_answers.any (fun tok =>
          match pyFloat tok with
          | some w => |v - w| < 1 / 100
          | none => false)
      | none => false
    { score := if final_answer_found then 1 else 3 / 10
      status := if final_answer_found then ("consistent") else ("inconsistent")
      step_answers := some step_answers }

/-- The per-disability expected/unexpected behavior-phrase catalog of
`validate_disability_behavior`. -/
def disabilityPatterns : List (String × (List String × List String)) :=
  [ ("Dyslexia",
      (["confusion", "re-reading", "number reversal", "mixing up", "difficulty reading",
        "reversed", "transposed", "b/d", "p/q", "6/9"],
       ["clear understanding", "no confusion", "perfect reading", "easily understood"])),
    ("Dyscalculia",
      (["number confusion", "operation confusion", "calculation errors", "number sense issues",
        "confused", "mistake", "wrong operation"],
       ["perfect calculations", "no number confusion", "clear calculations"])),
    ("Attention Deficit Hyperactivity Disorder",
      (["rushing", "skipping steps", "careless errors", "impulsive", "losing focus",
        "quickly", "fast", "skip"],
       ["careful work", "no rushing", "complete steps", "thoroughly"])),
    ("Dysgraphia",
      (["handwriting", "writing", "difficulty writing", "messy", "unclear", "backwards"],
       ["clear writing", "neat", "perfect handwriting"])),
    ("Auditory Processing Disorder",
      (["misunderstood", "confused instructions", "hearing", "listening", "misheard"],
       ["clear understanding", "perfect hearing"])),
    ("Non verbal Learning Disorder",
      (["visual", "spatial", "diagram", "chart", "graph", "confused"],
       ["clear visual understanding", "perfect spatial"])),
    ("Language Processing Disorder",
      (["language", "words", "vocabulary", "confused", "misunderstood"],
       ["clear language", "perfect understanding"])),
    ("No disability",
      (["clear thinking", "logical steps", "careful work", "methodical", "systematic"],
       ["excessive confusion", "major errors", "disability-like patterns", "very confused",
        "completely wrong"])) ]

/-- Catalog lookup with the `"No disability"` default
(`disability_patterns.get(disability, disability_patterns["No disability"])`). -/
def patternsFor (disability : String) : List String × List String :=
  match (disabilityPatterns.filter (fun kv => kv.1 = disability)).head? with
  | some kv => kv.2
  | none =>
    (["clear thinking", "logical steps", "careful work", "methodical", "systematic"],
     ["excessive confusion", "major errors", "disability-like patterns", "very confused",
      "completely wrong"])

/-- The concatenated lower-cased free text analysed by the behavior and
error-pattern checks: thought process, all steps, disability-impact note. -/
def attemptText (a : Attempt) : String :=
  toLowerStr (joinSpace
    [ pyStr (getD a ("thoughtprocess") (.vstr (""))),
      joinSpace ((attemptSteps a).map pyStr),
      pyStr (getD a ("disability_impact") (.vstr (""))) ])

/-- Result record of `validate_disability_behavior` (informational
`details` string omitted). -/
structure BehaviorCheckResult where
  score : Rat
  status : String
  expected_found : List String
  unexpected_found : List String

/-- Model of `validate_disability_behavior` (the unused `problem` argument
of the source is dropped).  Note the score is
`min(1.0, base + expected_score - unexpected_penalty)` exactly as in the
source: there is no lower clamp at 0. -/
def validate_disability_behavior (disability : String) (a : Attempt) : BehaviorCheckResult :=
  let pats := patternsFor disability
  let text := attemptText a
  let expected_found := pats.1.filter (fun b => strContains text b)
  let unexpected_found := pats.2.filter (fun b => strContains text b)
  let expected_matches := expected_found.length
  let unexpected_matches := unexpected_found.length
  let total_expected := pats.1.length
  let total_unexpected := pats.2.length
  let expected_score : Rat := min 1 ((expected_matches : Rat) / max 1 ((total_expected : Rat) * (3 / 10)))
  let unexpected_penalty : Rat := min (1 / 2) ((unexpected_matches : Rat) / max 1 ((total_unexpected : Rat) * (1 / 2)))
  let base_score : Rat := if 0 < expected_matches then 3 / 10 else 1 / 10
  let score := min 1 (base_score + expected_score - unexpected_penalty)
  { score := score
    status := if score > 1 / 2 then ("realistic") else ("unrealistic")
    expected_found := expected_found
    unexpected_found := unexpected_found }

/-- Result record of `validate_mathematical_reasoning`; the three sub-check
booleans are absent (`none`) on the early incomplete return. -/
structure MathCheckResult where
  score : Rat
  status : String
  has_operations : Option Bool
  has_progression : Option Bool
  reasonable_answer : Option Bool

/-- Operation tokens searched for inside steps. -/
def opTokens : List String := ["+", "-", "×", "*", "÷", "/", "=", "equals"]

/-- Model of `validate_mathematical_reasoning`.  The reasonableness
sub-check divides by the (signed) expected value, exactly as the source
does. -/
def validate_mathematical_reasoning (a : Attempt) (problem : String) (expected_answer : String) : MathCheckResult :=
  let steps := attemptSteps a
  let student_answer := extract_final_answer a
  if steps.isEmpty ∨ student_answer.isEmpty then
    { score := 0, status := ("incomplete"),
      has_operations := none, has_progression := none, reasonable_answer := none }
  else
    let student_num := parseNumericLike (.vstr student_answer)
    let expected_num := parseNumericLike (.vstr expected_answer)
    let has_operations :=
      steps.any (fun st => opTokens.any (fun op => strContains (toLowerStr (pyStr st)) op))
    let has_progression : Bool := decide (2 ≤ steps.length)
    let reasonable_answer : Bool :=
      match expected_num, student_num with
      | some e, some s => if e ≠ 0 then decide (|s - e| / e < 1 / 2) else true
      | _, _ => false
    let score : Rat :=
      ((if has_operations then 1 else 0) + (if has_progression then 1 else 0) +
        (if reasonable_answer then 1 else 0)) / 3
    { score := score
      status := if score > 7 / 10 then ("good") else ("needs_improvement")
      has_operations := some has_operations
      has_progression := some has_progression
      reasonable_answer := some reasonable_answer }

/-- The per-disability error-pattern catalog of `validate_error_patterns`. -/
def errorPatterns : List (String × List String) :=
  [ ("Dyslexia", ["6/9", "b/d", "p/q", "reversed", "transposed"]),
    ("Dyscalculia", ["operation confusion", "number confusion", "place value"]),
    ("Attention Deficit Hyperactivity Disorder", ["rushed", "skipped", "careless"]),
    ("No disability", []) ]

/-- Result record of `validate_error_patterns` (informational strings
omitted). -/
structure ErrorCheckResult where
  score : Rat
  status : String
  found_patterns : List String

/-- Generic error indicators used for the `"No disability"` branch. -/
def errorIndicators : List String := ["confusion", "mistake", "error", "wrong", "difficult"]

/-- Model of `validate_error_patterns`. -/
def validate_error_patterns (disability : String) (a : Attempt) : ErrorCheckResult :=
  let expected_errors :=
    match (errorPatterns.filter (fun kv => kv.1 = disability)).head? with
    | some kv => kv.2
    | none => []
  let text := attemptText a
  let found_patterns := expected_errors.filter (fun p => strContains text p)
  if disability = ("No disability") then
    let error_count := (errorIndicators.filter (fun i => strContains text i)).length
    let score : Rat := max 0 (1 - (error_count : Rat) * (2 / 10))
    { score := score
      status := if score > 7 / 10 then ("appropriate") else ("too_many_errors")
      found_patterns := found_patterns }
  else
    let relevant_errors := found_patterns.length
    let score : Rat :=
      if expected_errors.isEmpty then 1 / 2
      else min 1 ((relevant_errors : Rat) / max 1 (expected_errors.length : Rat))
    { score := score
      status := if score > 3 / 10 then ("realistic") else ("unrealistic")
      found_patterns := found_patterns }

/-- Result record of `validate_response_completeness`. -/
structure CompletenessCheckResult where
  score : Rat
  status : String
  present_fields : List String
  missing_fields : List String

/-- The required attempt fields checked by `validate_response_completeness`. -/
def requiredFields : List String := ["thoughtprocess", "steps_to_solve", "disability_impact"]

/-- Model of `validate_response_completeness`. -/
def validate_response_completeness (a : Attempt) : CompletenessCheckResult :=
  let present_fields := requiredFields.filter (fun f =>
    match lookupKey a f with
    | some v => v.truthy
    | none => false)
  let completeness_score : Rat := (present_fields.length : Rat) / (requiredFields.length : Rat)
  let steps := attemptSteps a
  let meaningful_steps := (steps.filter (fun st => 10 < (pyStrip (pyStr st)).length)).length
  let tp := getD a ("thoughtprocess") (.vstr (""))
  let meaningful_thoughts : Bool := decide (20 < (pyStrip (pyStr tp)).length)
  let structure_score : Rat :=
    ((meaningful_steps : Rat) / max 1 (steps.length : Rat) +
      (if meaningful_thoughts then 1 else 0)) / 2
  let overall_score := (completeness_score + structure_score) / 2
  { score := overall_score
    status := if overall_score > 7 / 10 then ("complete") else ("incomplete")
    present_fields := present_fields
    missing_fields := requiredFields.filter (fun f => ¬ present_fields.contains f) }

end Dashboard.Validator

namespace Dashboard.Cache

/-- Entry of the LLM cache (`cache.py`, `CacheEntry`): creation timestamp
plus the deep-copied payload. -/
structure CacheEntry where
  created_at : Rat
  payload : PyVal

/-- The in-memory LLM cache (`cache.py`, `LLMCache`): TTL, capacity bound
and the `OrderedDict` store, modelled as an association list whose order is
the `OrderedDict` order (front = least recently used, back = most
recent). -/
structure LLMCache where
  ttl_seconds : Rat
  max_entries : Nat
  store : List (String × CacheEntry)

/-- Constructor `LLMCache.__init__`: `ttl_seconds = max(0, ttl_seconds)`,
`max_entries = max(1, max_entries)`, empty store. -/
def LLMCache.init (ttl max_entries : Int) : LLMCache :=
  { ttl_seconds := ((max 0 ttl : Int) : Rat)
    max_entries := (max 1 max_entries).toNat
    store := [] }

/-- First-match lookup in the store list. -/
def findEntry (st : List (String × CacheEntry)) (k : String) : Option CacheEntry :=
  match st with
  | [] => none
  | (k2, e) :: rest => if k2 = k then some e else findEntry rest k

/-- Entry lookup in the store (`self._store.get(key)`). -/
def LLMCache.find (c : LLMCache) (k : String) : Option CacheEntry :=
  findEntry c.store k

/-- Store with every entry for key `k` removed (`self._store.pop(key, None)`
and the removal half of `move_to_end`; keys are unique in a dict, so the
filter removes exactly the entry for `k` when present). -/
def eraseKey (st : List (String × CacheEntry)) (k : String) : List (String × CacheEntry) :=
  st.filter (fun kv => kv.1 ≠ k)

/-- The cache `get` (`LLMCache.get`), with the current wall-clock time `now`
passed explicitly in place of `time.time()`.  Returns the retrieved payload
(`copy.deepcopy` is the identity here) together with the updated cache:
absent key leaves the store unchanged, an expired entry is popped, a hit is
moved to the most-recent end. -/
def LLMCache.get (c : LLMCache) (now : Rat) (k : String) : Option PyVal × LLMCache :=
  match c.find k with
  | none => (none, c)
  | some e =>
    if c.ttl_seconds ≠ 0 ∧ now - e.created_at > c.ttl_seconds then
      (none, { c with store := eraseKey c.store k })
    else
      (some e.payload, { c with store := eraseKey c.store k ++ [(k, e)] })

/-- The cache `set` (`LLMCache.set`): an existing key is moved to the end
and overwritten with a fresh entry; a new key first evicts the
least-recently-used entry (`popitem(last=False)`) when the store is at
capacity, then is appended at the most-recent end. -/
def LLMCache.set (c : LLMCache) (now : Rat) (k : String) (payload : PyVal) : LLMCache :=
  if (c.find k).isSome then
    { c with store := eraseKey c.store k ++ [(k, ⟨now, payload⟩)] }
  else
    let st := if c.store.length ≥ c.max_entries then c.store.drop 1 else c.store
    { c with store := st ++ [(k, ⟨now, payload⟩)] }

/-- The cache `clear` (`LLMCache.clear`). -/
def LLMCache.clear (c : LLMCache) : LLMCache :=
  { c with store := [] }

/-- One external cache operation, for stating whole-history invariants. -/
inductive CacheOp where
  | opGet (now : Rat) (k : String)
  | opSet (now : Rat) (k : String) (payload : PyVal)
  | opClear

/-- Apply one operation to the cache state. -/
def applyOp (c : LLMCache) (op : CacheOp) : LLMCache :=
  match op with
  | .opGet now k => (c.get now k).2
  | .opSet now k p => c.set now k p
  | .opClear => c.clear

end Dashboard.Cache

namespace Dashboard.Adaptive

open Dashboard

/-- One record of the student history consumed by
`AdaptiveDifficultyManager` (`adaptive_difficulty.py`): an optional
`consistency_score` and an optional `is_correct` flag (`Option` models
field presence; the stored `Bool` is the Python truthiness of the stored
value). -/
structure SessionRecord where
  consistency_score : Option Rat
  is_correct : Option Bool

/-- `self.difficulty_levels`. -/
def difficulty_levels : List String := ["easy", "medium", "hard"]

/-- Metrics computed by `_extract_metrics`. -/
structure Metrics where
  avg_consistency : Rat
  accuracy : Rat
  best_consistency : Rat
  sample_size : Nat
  explicit_accuracy_used : Bool

/-- Model of `AdaptiveDifficultyManager._extract_metrics`. -/
def extract_metrics (sessions : List SessionRecord) : Metrics :=
  let scores := sessions.map (fun s => max 0 (min 1 (s.consistency_score.getD 0)))
  let avg_consistency : Rat := if ¬ scores.isEmpty then scores.sum / (scores.length : Rat) else 0
  let explicit := (sessions.filter (fun s => s.is_correct.isSome)).map
    (fun s => if s.is_correct.getD false then (1 : Rat) else 0)
  let accuracy : Rat :=
    if ¬ explicit.isEmpty then explicit.sum / (explicit.length : Rat) else avg_consistency
  let best_consistency : Rat := (scores.max?).getD 0
  { avg_consistency := avg_consistency
    accuracy := accuracy
    best_consistency := best_consistency
    sample_size := sessions.length
    explicit_accuracy_used := ¬ explicit.isEmpty }

/-- Trend label and delta computed by `_compute_trend`. -/
structure Trend where
  label : String
  delta : Rat

/-- Model of `AdaptiveDifficultyManager._compute_trend` (scores are used
unclamped here, exactly as in the source). -/
def compute_trend (sessions : List SessionRecord) : Trend :=
  let scores := sessions.map (fun s => s.consistency_score.getD 0)
  if scores.length < 3 then { label := ("insufficient_data"), delta := 0 }
  else
    let midpoint := scores.length / 2
    let early_avg : Rat := (scores.take midpoint).sum / ((max midpoint 1 : Nat) : Rat)
    let late_avg : Rat := (scores.drop midpoint).sum / ((max (scores.length - midpoint) 1 : Nat) : Rat)
    let delta := late_avg - early_avg
    { label :=
        if delta > 1 / 10 then ("improving")
        else if delta < -(1 / 10) then ("declining")
        else ("stable")
      delta := delta }

/-- Result of `_choose_difficulty`. -/
structure Adjustment where
  new_difficulty : String
  reasoning : String

/-- Model of `AdaptiveDifficultyManager._choose_difficulty`.  The nested
`if metric-condition: if index-condition: return` structure of the source
(where a failed inner index check falls through to the next rule) is
flattened into conjunctions, which is equivalent. -/
def choose_difficulty (current : String) (m : Metrics) (t : Trend) : Adjustment :=
  let current_index := difficulty_levels.indexOf current
  if m.accuracy ≥ 8 / 10 ∧ m.avg_consistency ≥ 3 / 4 ∧ m.best_consistency ≥ 17 / 20 ∧
      current_index < difficulty_levels.length - 1 then
    { new_difficulty := difficulty_levels.getD (current_index + 1) current
      reasoning := ("Recent work is consistently strong. Increasing challenge level.") }
  else if (m.accuracy ≤ 9 / 20 ∨ m.avg_consistency ≤ 2 / 5) ∧ 0 < current_index then
    { new_difficulty := difficulty_levels.getD (current_index - 1) current
      reasoning := ("Student is struggling with current level. Reducing difficulty for consolidation.") }
  else if t.label = ("declining") ∧ m.avg_consistency < 3 / 5 ∧ 0 < current_index then
    { new_difficulty := difficulty_levels.getD (current_index - 1) current
      reasoning := ("Recent decline in performance detected. Lowering difficulty to rebuild confidence.") }
  else if t.label = ("improving") ∧ m.avg_consistency ≥ 7 / 10 ∧
      current_index < difficulty_levels.length - 1 then
    { new_difficulty := difficulty_levels.getD (current_index + 1) current
      reasoning := ("Performance is steadily improving. Introducing the next difficulty step.") }
  else
    { new_difficulty := current
      reasoning := ("Keep practicing at the current level to gather more data before adjusting.") }

/-- Python `round(q, 2)`: every value reaching it on the embedded paths is
an exact multiple of 1/20, where all tie-breaking conventions agree. -/
def round2 (q : Rat) : Rat := ((round (q * 100) : Int) : Rat) / 100

/-- Model of `AdaptiveDifficultyManager._confidence_score`. -/
def confidence_score (history : List SessionRecord) (m : Metrics) : Rat :=
  let session_count := history.length
  let base : Rat := 3 / 10 + ((min session_count 10 : Nat) : Rat) * (1 / 20)
  let base2 : Rat := if m.explicit_accuracy_used then base + 1 / 10 else base
  round2 (min base2 (9 / 10))

/-- Model of `AdaptiveDifficultyManager._generate_recommendations`. -/
def generate_recommendations (m : Metrics) (t : Trend) : List String :=
  let recs :=
    (if m.avg_consistency < 1 / 2 then
      [("Review recent problems step-by-step to build reliable routines.")] else []) ++
    (if m.accuracy < 6 / 10 then
      [("Focus on targeted practice with feedback on mistakes.")] else []) ++
    (if t.label = ("declining") then
      [("Reduce cognitive load and revisit foundational concepts.")] else []) ++
    (if m.avg_consistency ≥ 3 / 4 ∧ (t.label = ("stable") ∨ t.label = ("improving")) then
      [("Introduce slightly more complex problems with scaffolding.")] else [])
  if recs.isEmpty then [("Maintain the current mix of problem types and monitor progress.")]
  else recs

/-- The result dictionary of `calculate_next_difficulty`
(`current_performance` is inlined into the three snapshot fields). -/
structure Recommendation where
  recommended_difficulty : String
  reasoning : String
  confidence : Rat
  consistency_score : Rat
  accuracy_rate : Rat
  trend : String
  recommendations : List String

/-- Model of `AdaptiveDifficultyManager.calculate_next_difficulty`. -/
def calculate_next_difficulty (student_history : List SessionRecord) (current_difficulty : String) :
    Recommendation :=
  if student_history.isEmpty then
    { recommended_difficulty := ("medium")
      reasoning := ("No prior sessions recorded. Begin at a balanced level.")
      confidence := 2 / 5
      consistency_score := 0
      accuracy_rate := 0
      trend := ("insufficient_data")
      recommendations := [("Collect a few sessions before adjusting difficulty")] }
  else
    let recent_sessions := student_history.drop (student_history.length - 5)
    let metrics := extract_metrics recent_sessions
    let trend := compute_trend recent_sessions
    let adjustment := choose_difficulty current_difficulty metrics trend
    { recommended_difficulty := adjustment.new_difficulty
      reasoning := adjustment.reasoning
      confidence := confidence_score student_history metrics
      consistency_score := metrics.avg_consistency
      accuracy_rate := metrics.accuracy
      trend := trend.label
      recommendations := generate_recommendations metrics trend }

end Dashboard.Adaptive

namespace Dashboard.Orchestrator

open Dashboard

/-- The LangGraph session state (`LearningSessionState`), a string-keyed
dict in insertion order. -/
abbrev State := List (String × PyVal)

/-- A node's returned state delta (the partial dict merged into the
state). -/
abbrev Delta := List (String × PyVal)

/-- Errors a node can raise: `HTTPException(status, detail)` or a
propagated `ValueError` from the LLM client. -/
inductive NodeError where
  | httpError (status : Nat) (detail : String)
  | valueError (msg : String)

/-- JSON string escaping for the double-quote and backslash characters
(`json.dumps` with `ensure_ascii=False` leaves other characters alone;
control characters are not modelled, none arise on the embedded paths). -/
def jsonEscape (s : String) : String :=
  String.mk (s.data.flatMap (fun c =>
    if c = '"' ∨ c = '\\' then ['\\', c] else [c]))

mutual

/-- Model of `json.dumps(v, ensure_ascii=False)` with the default
separators (`", "` and `": "`), as used by `LLMClient.dumps`.
`json.dumps` raises `TypeError` on sets; the embedded call sites never
pass one. -/
def jsonDumps : PyVal → String
  | .vstr s => "\"" ++ jsonEscape s ++ "\""
  | .vint n => intStr n
  | .vfloat q => floatRepr q
  | .vbool b => if b then ("true") else ("false")
  | .vnone => ("null")
  | .vlist xs => ("[") ++ jsonDumpsJoin xs ++ ("]")
  | .vdict es => ("\x7b") ++ jsonDumpsEntries es ++ ("\x7d")
  | .vset _ => ("")

/-- Comma-joined dumps of list elements. -/
def jsonDumpsJoin : List PyVal → String
  | [] => ("")
  | [x] => jsonDumps x
  | x :: y :: rest => jsonDumps x ++ (", ") ++ jsonDumpsJoin (y :: rest)

/-- Comma-joined dumps of dict entries. -/
def jsonDumpsEntries : List (String × PyVal) → String
  | [] => ("")
  | [(k, v)] => "\"" ++ jsonEscape k ++ "\"" ++ (": ") ++ jsonDumps v
  | (k, v) :: e :: rest =>
    "\"" ++ jsonEscape k ++ "\"" ++ (": ") ++ jsonDumps v ++ (", ") ++ jsonDumpsEntries (e :: rest)

end

/-- The orchestrator with its collaborators abstracted: the prompt
builders of `prompts.py` (pure template fills) and the LLM invocation
(`LLMClient.invoke_with_prompt`, taking prompt, model and temperature;
an `Except.error` models a raised `ValueError`).  The in-place
`_record_cache` metadata bookkeeping is outside the returned delta and is
not modelled. -/
structure LangGraphOrchestrator where
  get_teaching_strategies_prompt : String → String → String → String → String
  get_tutor_session_prompt : String → String → String → String → String
  get_consistency_validation_prompt : String → String → String → String → String
  get_adaptive_difficulty_prompt : PyVal → String → String
  get_disability_identification_prompt : String → PyVal → String
  invoke_with_prompt : String → String → Rat → Except String PyVal

/-- The metadata dict of a state (`state.get("metadata") or {}`); a
non-dict metadata value is excluded by `WFState`. -/
def stateMetadata (s : State) : List (String × PyVal) :=
  match lookupKey s ("metadata") with
  | some (.vdict es) => es
  | _ => []

/-- Well-formedness of a state: `metadata`, when present, is a dict. -/
def WFState (s : State) : Bool :=
  match lookupKey s ("metadata") with
  | none => true
  | some (.vdict _) => true
  | some _ => false

/-- Model of `LangGraphOrchestrator._stop_after`:
`str(metadata.get("stop_after", "")).lower()`. -/
def stop_after (s : State) : String :=
  toLowerStr (pyStr (getD (stateMetadata s) ("stop_after") (.vstr (""))))

/-- Truthiness of `state.get(k)`. -/
def stateTruthy (s : State) (k : String) : Bool :=
  match lookupKey s k with
  | some v => v.truthy
  | none => false

/-- The `problem.get("problem", "") if isinstance(problem, dict) else
str(problem)` idiom shared by the strategy/tutor/consistency nodes
(rendered to the string the prompt template interpolates). -/
def problemText (problem : PyVal) : String :=
  match problem with
  | .vdict es => pyStr (getD es ("problem") (.vstr ("")))
  | p => pyStr p

/-- Model of `LangGraphOrchestrator._strategy_node`.  Note: unlike the
tutor, consistency, adaptive and identify nodes, this node has no
`stop_after` guard. -/
def strategy_node (o : LangGraphOrchestrator) (s : State) : Except NodeError Delta :=
  if ¬ stateTruthy s ("thought_analysis") then .ok []
  else
    let problem := getD s ("problem") (.vdict [])
    let attempt := getD s ("student_attempt") (.vdict [])
    let disability := pyStr (getD s ("disability") (.vstr ("Dyslexia")))
    let thought := getD s ("thought_analysis") (.vdict [])
    let prompt := o.get_teaching_strategies_prompt disability (problemText problem)
      (jsonDumps attempt) (jsonDumps thought)
    match o.invoke_with_prompt prompt ("gpt-4o-mini") (4 / 10) with
    | .error e => .error (.valueError e)
    | .ok payload =>
      if ¬ payload.isDict then
        .error (.httpError 500 ("Teaching strategies returned invalid payload"))
      else .ok [(("strategies"), payload)]

/-- Model of `LangGraphOrchestrator._tutor_node`, whose first statement is
the `stop_after in ("analysis", "strategies")` guard. -/
def tutor_node (o : LangGraphOrchestrator) (s : State) : Except NodeError Delta :=
  if (["analysis", "strategies"] : List String).contains (stop_after s) then .ok []
  else if ¬ stateTruthy s ("thought_analysis") then .ok []
  else
    let problem := getD s ("problem") (.vdict [])
    let attempt := getD s ("student_attempt") (.vdict [])
    let disability := pyStr (getD s ("disability") (.vstr ("Dyslexia")))
    let thought := getD s ("thought_analysis") (.vdict [])
    let prompt := o.get_tutor_session_prompt disability (problemText problem)
      (jsonDumps attempt) (jsonDumps thought)
    match o.invoke_with_prompt prompt ("gpt-4o-mini") (7 / 10) with
    | .error e => .error (.valueError e)
    | .ok payload =>
      if ¬ payload.isDict then
        .error (.httpError 500 ("Tutor session returned invalid payload"))
      else .ok [(("tutor_session"), payload)]

/-- Model of `LangGraphOrchestrator._consistency_node`, guarded on
`stop_after in ("analysis", "strategies", "tutor")`. -/
def consistency_node (o : LangGraphOrchestrator) (s : State) : Except NodeError Delta :=
  if (["analysis", "strategies", "tutor"] : List String).contains (stop_after s) then .ok []
  else
    let problem := getD s ("problem") (.vdict [])
    let attempt := (lookupKey s ("student_attempt")).getD .vnone
    let disability := pyStr (getD s ("disability") (.vstr ("Dyslexia")))
    if ¬ problem.truthy ∨ ¬ attempt.truthy then .ok []
    else
      let expected_answer : PyVal :=
        match problem with
        | .vdict es => (lookupKey es ("answer")).getD .vnone
        | _ => .vstr ("")
      let eaStr := if expected_answer.truthy then pyStr expected_answer else ("")
      let prompt := o.get_consistency_validation_prompt (problemText problem) disability
        (jsonDumps attempt) eaStr
      match o.invoke_with_prompt prompt ("gpt-4o-mini") (2 / 10) with
      | .error e => .error (.valueError e)
      | .ok payload =>
        if ¬ payload.isDict then
          .error (.httpError 500 ("Consistency validation returned invalid payload"))
        else .ok [(("consistency_report"), payload)]

/-- Model of `LangGraphOrchestrator._adaptive_difficulty_node`, guarded on
`stop_after in ("analysis", "strategies", "tutor", "consistency")`. -/
def adaptive_difficulty_node (o : LangGraphOrchestrator) (s : State) : Except NodeError Delta :=
  if (["analysis", "strategies", "tutor", "consistency"] : List String).contains (stop_after s) then
    .ok []
  else
    let history := (lookupKey s ("student_history")).getD .vnone
    if ¬ history.truthy then .ok []
    else
      let current_difficulty := getD s ("difficulty") (.vstr ("medium"))
      let prompt := o.get_adaptive_difficulty_prompt history (pyStr current_difficulty)
      match o.invoke_with_prompt prompt ("gpt-4o-mini") (3 / 10) with
      | .error e => .error (.valueError e)
      | .ok payload =>
        if ¬ payload.isDict then
          .error (.httpError 500 ("Adaptive difficulty returned invalid payload"))
        else .ok [(("adaptive_plan"), payload)]

/-- Model of `LangGraphOrchestrator._identify_disability_node`, guarded on
`stop_after in ("analysis", "strategies", "tutor", "consistency",
"adaptive")`. -/
def identify_disability_node (o : LangGraphOrchestrator) (s : State) : Except NodeError Delta :=
  if (["analysis", "strategies", "tutor", "consistency", "adaptive"] : List String).contains
      (stop_after s) then .ok []
  else
    let student_response := (lookupKey s ("student_response")).getD .vnone
    if ¬ student_response.truthy then .ok []
    else
      let problem := getD s ("problem") (.vdict [])
      let pt : PyVal :=
        match problem with
        | .vdict es => (lookupKey es ("problem")).getD .vnone
        | _ => .vnone
      if ¬ pt.truthy then .ok []
      else
        let prompt := o.get_disability_identification_prompt (pyStr pt) student_response
        match o.invoke_with_prompt prompt ("gpt-4o-mini") (2 / 10) with
        | .error e => .error (.valueError e)
        | .ok payload =>
          if ¬ payload.isDict then
            .error (.httpError 500 ("Disability analysis returned invalid payload"))
          else .ok [(("disability_analysis"), payload)]

/-- Model of `LangGraphOrchestrator.sanitize_state`: iterate the state in
order; keep `metadata` only when truthy, keep every other field exactly
when its value is not `None`. -/
def sanitize_state (s : State) : State :=
  s.filter (fun kv => if kv.1 = ("metadata") then kv.2.truthy else !kv.2.isNone)

end Dashboard.Orchestrator

namespace Dashboard.KeyDeriv

open Dashboard

/-- Sort dict entries by key (`sorted(value)` over the keys of a dict in
`_prepare_for_cache`, and the `sort_keys=True` pass of `json.dumps`);
`mergeSort` is stable, and keys are unique in a Python dict. -/
def sortEntries (es : List (String × PyVal)) : List (String × PyVal) :=
  es.mergeSort (fun a b => a.1 ≤ b.1)

/-- Numeric sort key of a Python value when it is a number (Python bools
compare as the ints 0/1). -/
def pyKeyNum : PyVal → Option Rat
  | .vint n => some (n : Rat)
  | .vfloat q => some q
  | .vbool b => some (if b then 1 else 0)
  | _ => none

/-- Model of the Python `<=` comparison used by `sorted` on set elements:
numbers compare by value, strings lexicographically.  Python raises
`TypeError` on other comparisons; the model returns `false` there, which
the theorems below never rely on (the element sort is only ever used as a
fixed function of the element list). -/
def pyLeBool (a b : PyVal) : Bool :=
  match pyKeyNum a, pyKeyNum b with
  | some x, some y => decide (x ≤ y)
  | _, _ =>
    match a, b with
    | .vstr s, .vstr t => decide (s ≤ t)
    | _, _ => false

/-- Sort set elements (`sorted(...)` in the set branch of
`_prepare_for_cache`). -/
def sortVals (xs : List PyVal) : List PyVal :=
  xs.mergeSort pyLeBool

mutual

/-- Model of `LLMClient._prepare_for_cache`: primitives and `None` pass
through, dicts are rewritten with keys sorted and values recursively
prepared, lists/tuples recurse element-wise preserving order, sets are
prepared and sorted into a list.  (The source sorts the keys and then
prepares each value; preparing the values first and then sorting by key is
the same list, since the stable sort compares only the unchanged keys.
The `repr` fallback for non-JSON-like objects is outside `PyVal`.) -/
def prepare_for_cache : PyVal → PyVal
  | .vstr s => .vstr s
  | .vint n => .vint n
  | .vfloat q => .vfloat q
  | .vbool b => .vbool b
  | .vnone => .vnone
  | .vdict es => .vdict (sortEntries (prepareEntries es))
  | .vlist xs => .vlist (prepareList xs)
  | .vset xs => .vlist (sortVals (prepareList xs))

/-- Entry-wise preparation of dict entries. -/
def prepareEntries : List (String × PyVal) → List (String × PyVal)
  | [] => []
  | (k, v) :: rest => (k, prepare_for_cache v) :: prepareEntries rest

/-- Element-wise preparation of list elements. -/
def prepareList : List PyVal → List PyVal
  | [] => []
  | x :: rest => prepare_for_cache x :: prepareList rest

end

mutual

/-- Recursively rewrite every dict so that its entries are in sorted key
order (the `sort_keys=True` behavior of `json.dumps`, pulled out as a
pre-pass so that serialization itself is structural). -/
def sortAllDicts : PyVal → PyVal
  | .vstr s => .vstr s
  | .vint n => .vint n
  | .vfloat q => .vfloat q
  | .vbool b => .vbool b
  | .vnone => .vnone
  | .vdict es => .vdict (sortEntries (sortAllEntries es))
  | .vlist xs => .vlist (sortAllList xs)
  | .vset xs => .vset xs

/-- Entry-wise recursion of `sortAllDicts`. -/
def sortAllEntries : List (String × PyVal) → List (String × PyVal)
  | [] => []
  | (k, v) :: rest => (k, sortAllDicts v) :: sortAllEntries rest

/-- Element-wise recursion of `sortAllDicts`. -/
def sortAllList : List PyVal → List PyVal
  | [] => []
  | x :: rest => sortAllDicts x :: sortAllList rest

end

mutual

/-- Compact JSON writer with separators `(",", ":")`, writing dict entries
in their list order.  `json.dumps` raises on sets; prepared payloads
contain none. -/
def dumpsCompact : PyVal → String
  | .vstr s => "\"" ++ Orchestrator.jsonEscape s ++ "\""
  | .vint n => intStr n
  | .vfloat q => floatRepr q
  | .vbool b => if b then ("true") else ("false")
  | .vnone => ("null")
  | .vlist xs => ("[") ++ dumpsCompactJoin xs ++ ("]")
  | .vdict es => ("\x7b") ++ dumpsCompactEntries es ++ ("\x7d")
  | .vset _ => ("")

/-- Comma-joined compact dumps of list elements. -/
def dumpsCompactJoin : List PyVal → String
  | [] => ("")
  | [x] => dumpsCompact x
  | x :: y :: rest => dumpsCompact x ++ (",") ++ dumpsCompactJoin (y :: rest)

/-- Comma-joined compact dumps of dict entries. -/
def dumpsCompactEntries : List (String × PyVal) → String
  | [] => ("")
  | [(k, v)] => "\"" ++ Orchestrator.jsonEscape k ++ "\"" ++ (":") ++ dumpsCompact v
  | (k, v) :: e :: rest =>
    "\"" ++ Orchestrator.jsonEscape k ++ "\"" ++ (":") ++ dumpsCompact v ++ (",") ++
      dumpsCompactEntries (e :: rest)

end

/-- Model of `json.dumps(v, sort_keys=True, separators=(",", ":"))` as
used by `_make_cache_key`. -/
def dumpsSorted (v : PyVal) : String := dumpsCompact (sortAllDicts v)

/-- Model of `LLMClient._make_cache_key`.  The final
`hashlib.sha256(serialized.encode("utf-8")).hexdigest()` step is
abstracted as the `digest` parameter: it is a fixed function of the
serialized string, so every theorem below holds for any choice of it. -/
def make_cache_key (digest : String → String) (handler_qualname handler_module : String)
    (args kwargs : PyVal) : String :=
  digest (dumpsSorted (.vdict
    [ (("handler"), .vstr handler_qualname),
      (("module"), .vstr handler_module),
      (("args"), prepare_for_cache args),
      (("kwargs"), prepare_for_cache kwargs) ]))

mutual

/-- Equality of JSON-like argument structures up to the insertion order of
keys in (nested) mappings: primitives must be equal, lists and sets must
agree element-wise in order, and dicts must have unique keys, equal sizes
and, for every entry of the first, an entry of the second under the same
key whose value is again equivalent. -/
def keyOrderEquiv : PyVal → PyVal → Bool
  | .vstr a, .vstr b => a = b
  | .vint a, .vint b => a = b
  | .vfloat a, .vfloat b => a = b
  | .vbool a, .vbool b => a = b
  | .vnone, .vnone => true
  | .vlist xs, .vlist ys => keyOrderEquivList xs ys
  | .vset xs, .vset ys => keyOrderEquivList xs ys
  | .vdict es, .vdict fs =>
    decide (es.map Prod.fst).Nodup && decide (fs.map Prod.fst).Nodup &&
      es.length = fs.length && keyOrderEquivEntries es fs
  | _, _ => false

/-- Element-wise equivalence of lists. -/
def keyOrderEquivList : List PyVal → List PyVal → Bool
  | [], [] => true
  | x :: xs, y :: ys => keyOrderEquiv x y && keyOrderEquivList xs ys
  | _, _ => false

/-- Every entry of the first list maps, under its key, to an equivalent
value in the second list. -/
def keyOrderEquivEntries : List (String × PyVal) → List (String × PyVal) → Bool
  | [], _ => true
  | (k, v) :: rest, fs =>
    (match lookupKey fs k with
     | some w => keyOrderEquiv v w
     | none => false) && keyOrderEquivEntries rest fs

end

end Dashboard.KeyDeriv

namespace Dashboard.Claims

open Dashboard Dashboard.Cache Dashboard.Validator Dashboard.Adaptive Dashboard.Orchestrator Dashboard.KeyDeriv

/-- Insert a batch of keys (with one payload and timestamp) in order,
with no intervening reads. -/
def insertAll (c : LLMCache) (t : Rat) (v : PyVal) (ks : List String) : LLMCache :=
  ks.foldl (fun c k => c.set t k v) c

/-- Run a whole operation history against a freshly constructed cache. -/
def runOps (ttl max_entries : Int) (ops : List CacheOp) : LLMCache :=
  ops.foldl applyOp (LLMCache.init ttl max_entries)

/-- One difficulty step up in the chain easy → medium → hard (the spec
wording of rules a and d of the difficulty decision). -/
def stepUp (cur : String) : String :=
  if cur = ("easy") then ("medium") else if cur = ("medium") then ("hard") else cur

/-- One difficulty step down in the chain easy → medium → hard. -/
def stepDown (cur : String) : String :=
  if cur = ("hard") then ("medium") else if cur = ("medium") then ("easy") else cur

/-- The difficulty decision procedure exactly as the spec words it
(claim C8): priority rules a–e, first match wins, "not at hardest/easiest"
phrased on the difficulty name. -/
def specChoose (cur : String) (m : Metrics) (trendLabel : String) : String :=
  if m.accuracy ≥ 8 / 10 ∧ m.avg_consistency ≥ 3 / 4 ∧ m.best_consistency ≥ 17 / 20 ∧
      cur ≠ ("hard") then stepUp cur
  else if (m.accuracy ≤ 9 / 20 ∨ m.avg_consistency ≤ 2 / 5) ∧ cur ≠ ("easy") then stepDown cur
  else if trendLabel = ("declining") ∧ m.avg_consistency < 3 / 5 ∧ cur ≠ ("easy") then stepDown cur
  else if trendLabel = ("improving") ∧ m.avg_consistency ≥ 7 / 10 ∧ cur ≠ ("hard") then stepUp cur
  else cur

/-- A trivial orchestrator instantiation: constant prompts, an LLM oracle
that always returns one fixed dict payload. -/
def oracle0 : LangGraphOrchestrator :=
  { get_teaching_strategies_prompt := fun _ _ _ _ => ("")
    get_tutor_session_prompt := fun _ _ _ _ => ("")
    get_consistency_validation_prompt := fun _ _ _ _ => ("")
    get_adaptive_difficulty_prompt := fun _ _ => ("")
    get_disability_identification_prompt := fun _ _ => ("")
    invoke_with_prompt := fun _ _ _ => .ok (.vdict [(("plan"), .vstr ("x"))]) }

/-- A session state whose metadata asks to stop after the analysis step and
that already carries a thought analysis. -/
def state0 : State :=
  [ (("metadata"), .vdict [(("stop_after"), .vstr ("analysis"))]),
    (("thought_analysis"), .vdict [(("summary"), .vstr ("t"))]) ]

/-- Attempt fixture for claim C6: an explicit final answer `"12"` and one
step containing `= 12`. -/
def attempt12 : Attempt :=
  [ (("final_answer"), .vstr ("12")),
    (("steps_to_solve"), .vlist [.vstr ("7 + 5 = 12")]) ]

/-- Attempt fixture for claim C6: no `final_answer` field, one step whose
last numeric token is the answer. -/
def attemptNoFinal : Attempt :=
  [ (("steps_to_solve"), .vlist [.vstr ("2 + 2 = 4")]) ]

/-- Attempt fixture for claim C7: answer 1000 with two steps. -/
def attempt1000 : Attempt :=
  [ (("final_answer"), .vstr ("1000")),
    (("steps_to_solve"), .vlist [.vstr ("x = 1000"), .vstr ("done")]) ]

end Dashboard.Claims

namespace Dashboard.Cache

theorem findEntry_nil (k : String) : findEntry [] k = none := rfl

theorem findEntry_cons (k2 : String) (e : CacheEntry) (rest : List (String × CacheEntry))
    (k : String) :
    findEntry ((k2, e) :: rest) k = if k2 = k then some e else findEntry rest k := rfl

theorem eraseKey_nil (k : String) : eraseKey [] k = [] := rfl

theorem eraseKey_cons (k2 : String) (e : CacheEntry) (rest : List (String × CacheEntry))
    (k : String) :
    eraseKey ((k2, e) :: rest) k =
      if k2 = k then eraseKey rest k else (k2, e) :: eraseKey rest k := by
  by_cases h : k2 = k <;> simp [eraseKey, List.filter_cons, h]

theorem findEntry_eq_none_iff (st : List (String × CacheEntry)) (k : String) :
    findEntry st k = none ↔ k ∉ st.map Prod.fst := by
  induction st with
  | nil => simp [findEntry_nil]
  | cons kv rest ih =>
    obtain ⟨k2, e⟩ := kv
    rw [findEntry_cons]
    by_cases h : k2 = k
    · subst h
      simp
    · simp [h, ih, Ne.symm h]

theorem findEntry_append_of_none {l1 : List (String × CacheEntry)} {k : String}
    (l2 : List (String × CacheEntry)) (h : findEntry l1 k = none) :
    findEntry (l1 ++ l2) k = findEntry l2 k := by
  induction l1 with
  | nil => simp
  | cons kv rest ih =>
    obtain ⟨k2, e⟩ := kv
    rw [findEntry_cons] at h
    by_cases hk : k2 = k
    · simp [hk] at h
    · rw [List.cons_append, findEntry_cons, if_neg hk]
      exact ih (by simpa [hk] using h)

theorem findEntry_eraseKey_self (st : List (String × CacheEntry)) (k : String) :
    findEntry (eraseKey st k) k = none := by
  induction st with
  | nil => simp [eraseKey_nil, findEntry_nil]
  | cons kv rest ih =>
    obtain ⟨k2, e⟩ := kv
    rw [eraseKey_cons]
    by_cases h : k2 = k
    · simpa [h] using ih
    · rw [if_neg h, findEntry_cons, if_neg h]
      exact ih

theorem findEntry_singleton (k : String) (e : CacheEntry) :
    findEntry [(k, e)] k = some e := by
  rw [findEntry_cons, if_pos rfl]

theorem eraseKey_length_le (st : List (String × CacheEntry)) (k : String) :
    (eraseKey st k).length ≤ st.length := List.length_filter_le _ _

theorem eraseKey_length_lt {st : List (String × CacheEntry)} {k : String} {e : CacheEntry}
    (h : findEntry st k = some e) : (eraseKey st k).length < st.length := by
  induction st with
  | nil => simp [findEntry_nil] at h
  | cons kv rest ih =>
    obtain ⟨k2, e2⟩ := kv
    rw [findEntry_cons] at h
    rw [eraseKey_cons]
    by_cases hk : k2 = k
    · rw [if_pos hk]
      have := eraseKey_length_le rest k
      simp only [List.length_cons]
      omega
    · rw [if_neg hk]
      rw [if_neg hk] at h
      have := ih h
      simp only [List.length_cons]
      omega

theorem findEntry_drop_one {st : List (String × CacheEntry)} {k : String}
    (h : findEntry st k = none) : findEntry (st.drop 1) k = none := by
  cases st with
  | nil => simpa using h
  | cons kv rest =>
    obtain ⟨k2, e⟩ := kv
    rw [findEntry_cons] at h
    by_cases hk : k2 = k
    · simp [hk] at h
    · simpa [hk] using h

theorem find_isSome_iff (c : LLMCache) (k : String) :
    (c.find k).isSome ↔ ∃ e, findEntry c.store k = some e := by
  unfold LLMCache.find
  cases h : findEntry c.store k <;> simp [h]

theorem set_find_self (c : LLMCache) (t : Rat) (k : String) (v : PyVal) :
    (c.set t k v).find k = some ⟨t, v⟩ := by
  unfold LLMCache.set LLMCache.find
  by_cases hm : (findEntry c.store k).isSome
  · rw [if_pos hm]
    exact (findEntry_append_of_none _ (findEntry_eraseKey_self _ _)).trans
      (findEntry_singleton _ _)
  · rw [if_neg hm]
    have h0 : findEntry c.store k = none := by
      cases h : findEntry c.store k
      · rfl
      · rw [h] at hm; simp at hm
    by_cases hl : c.store.length ≥ c.max_entries
    · simp only [hl, if_true]
      exact (findEntry_append_of_none _ (findEntry_drop_one h0)).trans
        (findEntry_singleton _ _)
    · simp only [hl, if_false]
      exact (findEntry_append_of_none _ h0).trans (findEntry_singleton _ _)

theorem set_ttl (c : LLMCache) (t : Rat) (k : String) (v : PyVal) :
    (c.set t k v).ttl_seconds = c.ttl_seconds := by
  unfold LLMCache.set
  by_cases hm : (c.find k).isSome <;> simp [hm]

end Dashboard.Cache

namespace Dashboard.Cache

theorem get_of_find_none {c : LLMCache} {now : Rat} {k : String} (h : c.find k = none) :
    c.get now k = (none, c) := by
  unfold LLMCache.get
  rw [h]

theorem get_of_find_some_expired {c : LLMCache} {now : Rat} {k : String} {e : CacheEntry}
    (h : c.find k = some e) (hexp : c.ttl_seconds ≠ 0 ∧ now - e.created_at > c.ttl_seconds) :
    c.get now k = (none, { c with store := eraseKey c.store k }) := by
  unfold LLMCache.get
  rw [h]
  dsimp only
  rw [if_pos hexp]

theorem get_of_find_some_fresh {c : LLMCache} {now : Rat} {k : String} {e : CacheEntry}
    (h : c.find k = some e)
    (hfresh : ¬(c.ttl_seconds ≠ 0 ∧ now - e.created_at > c.ttl_seconds)) :
    c.get now k = (some e.payload, { c with store := eraseKey c.store k ++ [(k, e)] }) := by
  unfold LLMCache.get
  rw [h]
  dsimp only
  rw [if_neg hfresh]

end Dashboard.Cache

namespace Dashboard.Claims

open Dashboard Dashboard.Cache Dashboard.Validator Dashboard.Adaptive Dashboard.Orchestrator Dashboard.KeyDeriv

/-- Claim C2: after `set(k, v)`, a `get(k)` within TTL (elapsed time not
greater than `ttl_seconds`, or `ttl_seconds = 0`) returns exactly `v`
(deep equality; copying is the identity on immutable modelled values);
if the TTL is nonzero and more than `ttl_seconds` elapsed since the
entry's `created_at`, `get` removes the entry and returns absent; `get`
of a key not in the store returns absent. -/
theorem claim_C2_cache_get_set_ttl :
    (∀ (c : LLMCache) (t0 t1 : Rat) (k : String) (v : PyVal),
      (c.ttl_seconds = 0 ∨ t1 - t0 ≤ c.ttl_seconds) →
        ((c.set t0 k v).get t1 k).1 = some v) ∧
    (∀ (c : LLMCache) (now : Rat) (k : String) (e : CacheEntry),
      c.find k = some e → c.ttl_seconds ≠ 0 → now - e.created_at > c.ttl_seconds →
        (c.get now k).1 = none ∧ (c.get now k).2.find k = none) ∧
    (∀ (c : LLMCache) (now : Rat) (k : String),
      c.find k = none → (c.get now k).1 = none) := by
  refine ⟨?_, ?_, ?_⟩
  · intro c t0 t1 k v h
    have hf := Cache.set_find_self c t0 k v
    have ht := Cache.set_ttl c t0 k v
    have hfresh : ¬((c.set t0 k v).ttl_seconds ≠ 0 ∧
        t1 - (⟨t0, v⟩ : CacheEntry).created_at > (c.set t0 k v).ttl_seconds) := by
      rw [ht]
      rcases h with h0 | hle
      · exact fun hc => hc.1 h0
      · exact fun hc => absurd hc.2 (by simpa using not_lt.mpr (by simpa using hle))
    rw [Cache.get_of_find_some_fresh hf hfresh]
  · intro c now k e hf h0 hgt
    rw [Cache.get_of_find_some_expired hf ⟨h0, hgt⟩]
    exact ⟨rfl, Cache.findEntry_eraseKey_self _ _⟩
  · intro c now k h
    rw [Cache.get_of_find_none h]

/-- Witness for claim C2 at concrete inputs: TTL 10, capacity 5; a value
set at time 0 is retrieved at time 5; at time 11 the entry is expired,
evicted and absent; a never-stored key is absent. -/
theorem claim_C2_witness :
    ((((LLMCache.init 10 5).set 0 ("k") (.vstr ("v"))).get 5 ("k")).1 = some (.vstr ("v"))) ∧
    (((((LLMCache.init 10 5).set 0 ("k") (.vstr ("v"))).get 11 ("k")).1 = none) ∧
      ((((LLMCache.init 10 5).set 0 ("k") (.vstr ("v"))).get 11 ("k")).2.find ("k") = none)) ∧
    (((LLMCache.init 10 5).get 0 ("nope")).1 = none) := by
  refine ⟨?_, ?_, ?_⟩
  · exact claim_C2_cache_get_set_ttl.1 (LLMCache.init 10 5) 0 5 ("k") (.vstr ("v"))
      (Or.inr (by with_unfolding_all decide))
  · exact claim_C2_cache_get_set_ttl.2.1 ((LLMCache.init 10 5).set 0 ("k") (.vstr ("v")))
      11 ("k") ⟨0, .vstr ("v")⟩ (by with_unfolding_all rfl)
      (by with_unfolding_all decide) (by with_unfolding_all decide)
  · exact claim_C2_cache_get_set_ttl.2.2 (LLMCache.init 10 5) 0 ("nope") rfl

theorem insertAll_fresh (t : Rat) (v : PyVal) :
    ∀ (ks : List String) (c : LLMCache), ks.Nodup → (∀ k ∈ ks, c.find k = none) →
      c.store.length + ks.length ≤ c.max_entries →
      (insertAll c t v ks).store = c.store ++ ks.map (fun k => (k, ⟨t, v⟩)) ∧
      (insertAll c t v ks).max_entries = c.max_entries := by
  intro ks
  induction ks with
  | nil => intro c _ _ _; simp [insertAll]
  | cons k ks ih =>
    intro c hnodup hfresh hlen
    have hknone : c.find k = none := hfresh k (List.mem_cons_self _ _)
    have hmem : ¬(c.find k).isSome := by rw [hknone]; simp
    have hlt : ¬(c.store.length ≥ c.max_entries) := by
      simp only [List.length_cons] at hlen
      omega
    have hset_store : (c.set t k v).store = c.store ++ [(k, ⟨t, v⟩)] := by
      unfold LLMCache.set
      rw [if_neg (by simpa [LLMCache.find] using hmem)]
      simp [hlt]
    have hset_max : (c.set t k v).max_entries = c.max_entries := by
      unfold LLMCache.set
      rw [if_neg (by simpa [LLMCache.find] using hmem)]
    have hstep : insertAll c t v (k :: ks) = insertAll (c.set t k v) t v ks := by
      simp [insertAll]
    have hfresh2 : ∀ k2 ∈ ks, (c.set t k v).find k2 = none := by
      intro k2 hk2
      have hne : k ≠ k2 := by
        rintro rfl
        exact (List.nodup_cons.mp hnodup).1 hk2
      show findEntry (c.set t k v).store k2 = none
      rw [hset_store, Cache.findEntry_append_of_none _ (hfresh k2 (List.mem_cons_of_mem _ hk2)),
        Cache.findEntry_cons, if_neg hne]
      rfl
    have hlen2 : (c.set t k v).store.length + ks.length ≤ (c.set t k v).max_entries := by
      rw [hset_store, hset_max]
      simp only [List.length_append, List.length_singleton]
      simp only [List.length_cons] at hlen
      omega
    obtain ⟨hs, hm⟩ := ih (c.set t k v) (List.nodup_cons.mp hnodup).2 hfresh2 hlen2
    rw [hstep]
    constructor
    · rw [hs, hset_store, List.append_assoc]
      simp
    · rw [hm, hset_max]

/-- Claim C3: `get` hits and `set` both move the touched key to the
most-recent end of the recency order; a `set` of a new key at capacity
evicts the least-recent (front) entry; and `max_entries + 1` distinct
insertions with no intervening reads, starting from a fresh cache, leave
the first-inserted key absent. -/
theorem claim_C3_cache_lru :
    (∀ (c : LLMCache) (now : Rat) (k : String),
      (c.get now k).1.isSome → (c.get now k).2.store.getLast?.map Prod.fst = some k) ∧
    (∀ (c : LLMCache) (now : Rat) (k : String) (v : PyVal),
      (c.set now k v).store.getLast?.map Prod.fst = some k) ∧
    (∀ (c : LLMCache) (now : Rat) (k : String) (v : PyVal),
      c.find k = none → c.store.length = c.max_entries →
        (c.set now k v).store.map Prod.fst = (c.store.map Prod.fst).drop 1 ++ [k]) ∧
    (∀ (ttl me : Int) (t : Rat) (v : PyVal) (ks : List String) (k0 : String),
      ks.Nodup → ks.length = (LLMCache.init ttl me).max_entries + 1 → ks.head? = some k0 →
        (insertAll (LLMCache.init ttl me) t v ks).find k0 = none) := by
  refine ⟨?_, ?_, ?_, ?_⟩
  · intro c now k hsome
    rcases hf : c.find k with _ | e
    · rw [Cache.get_of_find_none hf] at hsome
      simp at hsome
    · by_cases hexp : c.ttl_seconds ≠ 0 ∧ now - e.created_at > c.ttl_seconds
      · rw [Cache.get_of_find_some_expired hf hexp] at hsome
        simp at hsome
      · rw [Cache.get_of_find_some_fresh hf hexp]
        simp
  · intro c now k v
    unfold LLMCache.set
    by_cases hm : (c.find k).isSome
    · rw [if_pos (by simpa [LLMCache.find] using hm)]
      simp
    · rw [if_neg (by simpa [LLMCache.find] using hm)]
      simp
  · intro c now k v hf hlen
    unfold LLMCache.set
    have hm : ¬(c.find k).isSome = true := by
      rw [hf]
      simp
    rw [if_neg hm]
    have hge : c.store.length ≥ c.max_entries := le_of_eq hlen.symm
    simp [hge, List.map_drop]
  · intro ttl me t v ks k0 hnodup hlen hhead
    rcases List.eq_nil_or_concat ks with rfl | ⟨front, klast, rfl⟩
    · simp at hhead
    · rw [List.concat_eq_append] at hlen hhead hnodup ⊢
      have hM : 1 ≤ (LLMCache.init ttl me).max_entries := by
        show 1 ≤ (max 1 me).toNat
        omega
      have hfrontlen : front.length = (LLMCache.init ttl me).max_entries := by
        simp only [List.length_append, List.length_singleton] at hlen
        omega
      have hfront_ne : front ≠ [] := by
        intro h
        rw [h] at hfrontlen
        simp at hfrontlen
        omega
      have hnodup_front : front.Nodup := (List.nodup_append.mp hnodup).1
      have hklast_notin : klast ∉ front := by
        intro hmem
        have := (List.nodup_append.mp hnodup).2.2
        exact this hmem (List.mem_singleton_self _)
      have hfold : insertAll (LLMCache.init ttl me) t v (front ++ [klast]) =
          (insertAll (LLMCache.init ttl me) t v front).set t klast v := by
        simp [insertAll, List.foldl_append]
      obtain ⟨hs, hm⟩ := insertAll_fresh t v front (LLMCache.init ttl me) hnodup_front
        (by intro k _; rfl)
        (by
          have hfl : front.length = (max 1 me).toNat := hfrontlen
          simp [LLMCache.init]
          omega)
      have hstore : (insertAll (LLMCache.init ttl me) t v front).store =
          front.map (fun k => (k, ⟨t, v⟩)) := by
        simpa [LLMCache.init] using hs
      have hfind_klast : (insertAll (LLMCache.init ttl me) t v front).find klast = none := by
        show findEntry _ klast = none
        rw [hstore, Cache.findEntry_eq_none_iff]
        simp only [List.map_map]
        intro hmem
        rcases List.mem_map.mp hmem with ⟨k2, hk2, hfk⟩
        simp at hfk
        subst hfk
        exact hklast_notin hk2
      have hlen_eq : (insertAll (LLMCache.init ttl me) t v front).store.length ≥
          (insertAll (LLMCache.init ttl me) t v front).max_entries := by
        rw [hstore, hm]
        simp [hfrontlen]
      rw [hfold]
      unfold LLMCache.set
      rw [if_neg (by rw [hfind_klast]; simp)]
      simp only [hlen_eq, if_true]
      show findEntry _ k0 = none
      rw [hstore]
      obtain ⟨f0, ftail, rfl⟩ : ∃ f0 ftail, front = f0 :: ftail := by
        cases front with
        | nil => exact absurd rfl hfront_ne
        | cons a b => exact ⟨a, b, rfl⟩
      have hk0 : k0 = f0 := by
        simp at hhead
        exact hhead.symm
      have hf0_notin : f0 ∉ ftail := (List.nodup_cons.mp hnodup_front).1
      have hne : klast ≠ f0 := fun h => hklast_notin (h ▸ List.mem_cons_self _ _)
      have hdrop : ((f0 :: ftail).map (fun k => ((k : String), (⟨t, v⟩ : CacheEntry)))).drop 1 =
          ftail.map (fun k => (k, ⟨t, v⟩)) := by
        simp
      rw [hdrop]
      have h1 : findEntry (ftail.map (fun k => (k, (⟨t, v⟩ : CacheEntry)))) k0 = none := by
        rw [Cache.findEntry_eq_none_iff]
        simp only [List.map_map]
        intro hmem
        rcases List.mem_map.mp hmem with ⟨k2, hk2, hfk⟩
        simp at hfk
        subst hfk
        rw [hk0] at hk2
        exact hf0_notin hk2
      rw [Cache.findEntry_append_of_none _ h1, Cache.findEntry_cons,
        if_neg (fun h => hne (h.trans hk0))]
      rfl

/-- Witness for claim C3 at concrete inputs: a hit moves the key to the
most-recent end; a set puts the key at the most-recent end; a set of a new
key at capacity 2 evicts the front key; three distinct insertions into a
capacity-2 cache leave the first key absent. -/
theorem claim_C3_witness :
    ((((LLMCache.init 10 3).set 0 ("a") (.vint 1)).get 1 ("a")).2.store.getLast?.map Prod.fst =
      some ("a")) ∧
    ((((LLMCache.init 10 3).set 0 ("b") (.vint 2)).store.getLast?.map Prod.fst) = some ("b")) ∧
    ((((LLMCache.init 10 2).set 0 ("a") (.vint 1)).set 0 ("b") (.vint 2)).set 0 ("c")
        (.vint 3)).store.map Prod.fst =
      (((((LLMCache.init 10 2).set 0 ("a") (.vint 1)).set 0 ("b")
        (.vint 2)).store.map Prod.fst).drop 1 ++ [("c")]) ∧
    ((insertAll (LLMCache.init 10 2) 0 (.vint 7) ["a", "b", "c"]).find ("a") = none) := by
  refine ⟨?_, ?_, ?_, ?_⟩
  · exact claim_C3_cache_lru.1 ((LLMCache.init 10 3).set 0 ("a") (.vint 1)) 1 ("a")
      (by with_unfolding_all decide)
  · exact claim_C3_cache_lru.2.1 (LLMCache.init 10 3) 0 ("b") (.vint 2)
  · exact claim_C3_cache_lru.2.2.1 (((LLMCache.init 10 2).set 0 ("a") (.vint 1)).set 0 ("b")
      (.vint 2)) 0 ("c") (.vint 3) (by with_unfolding_all rfl) (by with_unfolding_all decide)
  · exact claim_C3_cache_lru.2.2.2 10 2 0 (.vint 7) ["a", "b", "c"] ("a")
      (by decide) (by with_unfolding_all decide) rfl

theorem applyOp_max_entries (c : LLMCache) (op : CacheOp) :
    (applyOp c op).max_entries = c.max_entries := by
  cases op with
  | opGet now k =>
    show ((c.get now k).2).max_entries = c.max_entries
    rcases hf : c.find k with _ | e
    · rw [Cache.get_of_find_none hf]
    · by_cases hexp : c.ttl_seconds ≠ 0 ∧ now - e.created_at > c.ttl_seconds
      · rw [Cache.get_of_find_some_expired hf hexp]
      · rw [Cache.get_of_find_some_fresh hf hexp]
  | opSet now k p =>
    show (c.set now k p).max_entries = c.max_entries
    unfold LLMCache.set
    by_cases hm : (c.find k).isSome <;> simp [hm]
  | opClear => rfl

theorem applyOp_length (c : LLMCache) (op : CacheOp)
    (h : c.store.length ≤ c.max_entries) (h1 : 1 ≤ c.max_entries) :
    (applyOp c op).store.length ≤ c.max_entries := by
  cases op with
  | opGet now k =>
    show ((c.get now k).2).store.length ≤ c.max_entries
    rcases hf : c.find k with _ | e
    · rw [Cache.get_of_find_none hf]
      exact h
    · by_cases hexp : c.ttl_seconds ≠ 0 ∧ now - e.created_at > c.ttl_seconds
      · rw [Cache.get_of_find_some_expired hf hexp]
        exact le_trans (Cache.eraseKey_length_le _ _) h
      · rw [Cache.get_of_find_some_fresh hf hexp]
        have hlt := Cache.eraseKey_length_lt hf
        simp only [List.length_append, List.length_singleton]
        omega
  | opSet now k p =>
    show (c.set now k p).store.length ≤ c.max_entries
    unfold LLMCache.set
    by_cases hm : (c.find k).isSome
    · rw [if_pos hm]
      rcases hf : c.find k with _ | e
      · rw [hf] at hm; simp at hm
      · have hlt := Cache.eraseKey_length_lt hf
        simp only [List.length_append, List.length_singleton]
        omega
    · rw [if_neg hm]
      by_cases hl : c.store.length ≥ c.max_entries
      · simp only [hl, if_true, List.length_append, List.length_drop, List.length_singleton]
        omega
      · simp only [hl, if_false, List.length_append, List.length_singleton]
        omega
  | opClear =>
    show (0 : Nat) ≤ c.max_entries
    omega

theorem foldl_applyOp_invariant (ops : List CacheOp) :
    ∀ (c : LLMCache), c.store.length ≤ c.max_entries → 1 ≤ c.max_entries →
      (ops.foldl applyOp c).store.length ≤ (ops.foldl applyOp c).max_entries ∧
      (ops.foldl applyOp c).max_entries = c.max_entries := by
  induction ops with
  | nil => intro c h h1; exact ⟨h, rfl⟩
  | cons op ops ih =>
    intro c h h1
    have hmax := applyOp_max_entries c op
    have hlen := applyOp_length c op h h1
    have := ih (applyOp c op) (by rw [hmax]; exact hlen) (by rw [hmax]; exact h1)
    simp only [List.foldl_cons]
    exact ⟨this.1, this.2.trans hmax⟩

/-- Claim C10: the constructor forces `max_entries ≥ 1` and
`ttl_seconds ≥ 0`, and the number of stored entries after any sequence of
`get`/`set`/`clear` operations on a freshly constructed cache never
exceeds `max_entries`. -/
theorem claim_C10_cache_capacity_invariant :
    ∀ (ttl me : Int) (ops : List CacheOp),
      1 ≤ (LLMCache.init ttl me).max_entries ∧
      0 ≤ (LLMCache.init ttl me).ttl_seconds ∧
      (runOps ttl me ops).store.length ≤ (LLMCache.init ttl me).max_entries := by
  intro ttl me ops
  have h1 : 1 ≤ (LLMCache.init ttl me).max_entries := by
    show 1 ≤ (max 1 me).toNat
    have := le_max_left (1 : Int) me
    omega
  refine ⟨h1, ?_, ?_⟩
  · show (0 : Rat) ≤ ((max 0 ttl : Int) : Rat)
    exact_mod_cast le_max_left (0 : Int) ttl
  · have := foldl_applyOp_invariant ops (LLMCache.init ttl me) (by simp [LLMCache.init]) h1
    calc (runOps ttl me ops).store.length ≤ (runOps ttl me ops).max_entries := this.1
      _ = (LLMCache.init ttl me).max_entries := this.2

end Dashboard.Claims

namespace Dashboard.Claims

open Dashboard Dashboard.Cache Dashboard.Validator Dashboard.Adaptive Dashboard.Orchestrator Dashboard.KeyDeriv

/-- Counterexample to claim C9: a field holding an empty (falsy but
non-`None`) value — here `problem = ""` — is retained by the sanitizer,
so the sanitizer does not drop every empty field. -/
theorem claim_C9_counterexample :
    sanitize_state [(("problem"), .vstr (""))] = [(("problem"), .vstr (""))] ∧
    (PyVal.vstr ("")).truthy = false := by
  exact ⟨rfl, rfl⟩

/-- Claim C9 (amended): the sanitizer keeps `metadata` exactly when it is
truthy (non-empty) and keeps every other field exactly when its value is
not `None` — empty strings/collections in non-`metadata` fields are
retained — and the sanitized state is a sublist (hence subset) of the
internal state. -/
theorem claim_C9_sanitize_characterization :
    ∀ (s : State),
      (sanitize_state s).Sublist s ∧
      (∀ (k : String) (v : PyVal), (k, v) ∈ sanitize_state s ↔
        ((k, v) ∈ s ∧
          (if k = ("metadata") then v.truthy = true else v.isNone = false))) := by
  intro s
  refine ⟨List.filter_sublist s, ?_⟩
  intro k v
  rw [sanitize_state, List.mem_filter]
  by_cases hk : k = ("metadata")
  · simp [hk]
  · simp [hk]

/-- Counterexample to claim C1: in a state whose `stop_after` is
`analysis` (so the strategies step lies beyond the stop point) and which
carries a thought analysis, the strategies node is not a no-op: it returns
a non-empty delta holding the strategies artifact, because the strategy
node has no `stop_after` guard. -/
theorem claim_C1_counterexample :
    stop_after state0 = ("analysis") ∧
    strategy_node oracle0 state0 =
      .ok [(("strategies"), .vdict [(("plan"), .vstr ("x"))])] ∧
    ((Except.ok [(("strategies"), .vdict [(("plan"), .vstr ("x"))])] :
        Except NodeError Delta) ≠ .ok ([] : Delta)) := by
  refine ⟨by with_unfolding_all rfl, by with_unfolding_all rfl, ?_⟩
  intro h
  simp at h

/-- Claim C1 (amended): the tutor, consistency, adaptive-difficulty and
identify-disability nodes each return the empty state delta whenever the
state's `stop_after` names an earlier stop point (their source guards);
the strategies node carries no such guard, as the counterexample shows. -/
theorem claim_C1_stop_after_guards :
    ∀ (o : LangGraphOrchestrator) (s : State),
      ((["analysis", "strategies"] : List String).contains (stop_after s) = true →
        tutor_node o s = .ok []) ∧
      ((["analysis", "strategies", "tutor"] : List String).contains (stop_after s) = true →
        consistency_node o s = .ok []) ∧
      ((["analysis", "strategies", "tutor", "consistency"] : List String).contains
          (stop_after s) = true →
        adaptive_difficulty_node o s = .ok []) ∧
      ((["analysis", "strategies", "tutor", "consistency", "adaptive"] : List String).contains
          (stop_after s) = true →
        identify_disability_node o s = .ok []) := by
  intro o s
  refine ⟨fun h => ?_, fun h => ?_, fun h => ?_, fun h => ?_⟩
  · unfold tutor_node
    rw [if_pos h]
  · unfold consistency_node
    rw [if_pos h]
  · unfold adaptive_difficulty_node
    rw [if_pos h]
  · unfold identify_disability_node
    rw [if_pos h]

/-- Witness for claim C1 (amended) at the concrete stop-after-analysis
state: all four guarded nodes return the empty delta. -/
theorem claim_C1_witness :
    tutor_node oracle0 state0 = .ok [] ∧
    consistency_node oracle0 state0 = .ok [] ∧
    adaptive_difficulty_node oracle0 state0 = .ok [] ∧
    identify_disability_node oracle0 state0 = .ok [] :=
  ⟨(claim_C1_stop_after_guards oracle0 state0).1 (by with_unfolding_all decide),
   (claim_C1_stop_after_guards oracle0 state0).2.1 (by with_unfolding_all decide),
   (claim_C1_stop_after_guards oracle0 state0).2.2.1 (by with_unfolding_all decide),
   (claim_C1_stop_after_guards oracle0 state0).2.2.2 (by with_unfolding_all decide)⟩

end Dashboard.Claims

namespace Dashboard.Claims

open Dashboard Dashboard.Cache Dashboard.Validator Dashboard.Adaptive Dashboard.Orchestrator Dashboard.KeyDeriv

theorem completeness_bounds_aux (p m l : Nat) (b : Bool) (hp : p ≤ 3) (hm : m ≤ l) :
    0 ≤ ((p : Rat) / 3 + ((m : Rat) / max 1 (l : Rat) + (if b then (1 : Rat) else 0)) / 2) / 2 ∧
    ((p : Rat) / 3 + ((m : Rat) / max 1 (l : Rat) + (if b then (1 : Rat) else 0)) / 2) / 2 ≤ 1 := by
  have hlpos : (0 : Rat) < max 1 (l : Rat) := lt_of_lt_of_le one_pos (le_max_left _ _)
  have hm2 : (m : Rat) ≤ max 1 (l : Rat) :=
    le_trans (by exact_mod_cast hm) (le_max_right _ _)
  have hdiv0 : (0 : Rat) ≤ (m : Rat) / max 1 (l : Rat) := div_nonneg (by positivity) hlpos.le
  have hdiv1 : (m : Rat) / max 1 (l : Rat) ≤ 1 := by
    rw [div_le_one hlpos]
    exact hm2
  have hp2 : (p : Rat) ≤ 3 := by exact_mod_cast hp
  have hp0 : (0 : Rat) ≤ (p : Rat) := by positivity
  constructor <;> split_ifs <;> linarith

/-- Counterexample to claim C5: for Dyslexia with free text
`"clear understanding"` (no expected phrase matches, one unexpected
phrase matches), the disability-behavior score is
`min(1, 0.1 + 0 - 0.5) = -0.4 < 0` — the source applies no lower clamp,
so the score is not `clamp(base + expected - penalty, 0, 1)` and is not
in `[0, 1]`. -/
theorem claim_C5_counterexample :
    (validate_disability_behavior ("Dyslexia")
      [(("thoughtprocess"), .vstr ("clear understanding"))]).score = -(2 / 5) ∧
    (-(2 / 5) : Rat) < 0 := by
  constructor
  · with_unfolding_all decide
  · norm_num

/-- Claim C5 (amended): the step-answer, mathematical-reasoning,
error-pattern and completeness checks all return scores in `[0, 1]` for
every input; the disability-behavior score is
`min(1, base + expected_score - unexpected_penalty)` with no lower clamp,
hence lies in `[-2/5, 1]` (and does reach negative values, per the
counterexample). -/
theorem claim_C5_check_score_bounds :
    (∀ (a : Attempt) (ans : String),
      0 ≤ (check_step_answer_consistency a ans).score ∧
        (check_step_answer_consistency a ans).score ≤ 1) ∧
    (∀ (a : Attempt) (p e : String),
      0 ≤ (validate_mathematical_reasoning a p e).score ∧
        (validate_mathematical_reasoning a p e).score ≤ 1) ∧
    (∀ (d : String) (a : Attempt),
      0 ≤ (validate_error_patterns d a).score ∧ (validate_error_patterns d a).score ≤ 1) ∧
    (∀ (a : Attempt),
      0 ≤ (validate_response_completeness a).score ∧
        (validate_response_completeness a).score ≤ 1) ∧
    (∀ (d : String) (a : Attempt),
      -(2 / 5) ≤ (validate_disability_behavior d a).score ∧
        (validate_disability_behavior d a).score ≤ 1) := by
  refine ⟨?_, ?_, ?_, ?_, ?_⟩
  · intro a ans
    unfold check_step_answer_consistency
    dsimp only
    split
    · norm_num
    · split <;> norm_num
  · intro a p e
    unfold validate_mathematical_reasoning
    dsimp only
    split
    · norm_num
    · split_ifs <;> norm_num
  · intro d a
    unfold validate_error_patterns
    dsimp only
    split
    · constructor
      · exact le_max_left 0 _
      · refine max_le (by norm_num) ?_
        have h0 : (0 : Rat) ≤
            ((errorIndicators.filter
              (fun i => strContains (attemptText a) i)).length : Rat) * (2 / 10) := by
          positivity
        linarith
    · refine ⟨?_, ?_⟩ <;> dsimp only
      · split_ifs with hemp
        · norm_num
        · refine le_min (by norm_num) ?_
          apply div_nonneg
          · positivity
          · exact le_trans zero_le_one (le_max_left _ _)
      · split_ifs with hemp
        · norm_num
        · exact min_le_left _ _
  · intro a
    unfold validate_response_completeness
    dsimp only
    have h3 : ((requiredFields.length : Nat) : Rat) = 3 := by norm_num [requiredFields]
    rw [h3]
    exact completeness_bounds_aux _ _ _ _
      (by
        have := List.length_filter_le (fun f =>
          match lookupKey a f with
          | some v => v.truthy
          | none => false) requiredFields
        simpa [requiredFields] using this)
      (List.length_filter_le _ _)
  · intro d a
    unfold validate_disability_behavior
    dsimp only
    constructor
    · refine le_min (by norm_num) ?_
      have hbase : (1 / 10 : Rat) ≤
          (if 0 < (((patternsFor d).1.filter
            (fun b => strContains (attemptText a) b)).length) then (3 / 10 : Rat)
           else 1 / 10) := by
        split_ifs <;> norm_num
      have hes : (0 : Rat) ≤ min 1
          (((((patternsFor d).1.filter (fun b => strContains (attemptText a) b)).length :
            Nat) : Rat) / max 1 ((((patternsFor d).1.length : Nat) : Rat) * (3 / 10))) := by
        refine le_min (by norm_num) ?_
        apply div_nonneg
        · positivity
        · exact le_trans zero_le_one (le_max_left _ _)
      have hup : min (1 / 2 : Rat)
          (((((patternsFor d).2.filter (fun b => strContains (attemptText a) b)).length :
            Nat) : Rat) / max 1 ((((patternsFor d).2.length : Nat) : Rat) * (1 / 2))) ≤
          1 / 2 := min_le_left _ _
      linarith
    · exact min_le_left _ _

end Dashboard.Claims

namespace Dashboard.Claims

open Dashboard Dashboard.Cache Dashboard.Validator Dashboard.Adaptive Dashboard.Orchestrator Dashboard.KeyDeriv

/-- Counterexample to claim C6: with `final_answer` absent but a step
carrying numeric tokens, `extract_final_answer` falls back to the last
numeric token of the last step (`"4.0"`), and the step-answer check scores
1.0, not the 0.0 the claim asserts for every attempt lacking
`final_answer`. -/
theorem claim_C6_counterexample :
    lookupKey attemptNoFinal ("final_answer") = none ∧
    extract_final_answer attemptNoFinal = ("4.0") ∧
    (check_step_answer_consistency attemptNoFinal
      (extract_final_answer attemptNoFinal)).score = 1 ∧
    ((1 : Rat) ≠ 0) := by
  refine ⟨rfl, by with_unfolding_all rfl, by with_unfolding_all decide, by norm_num⟩

/-- Claim C6 (amended): with `final_answer = "12"` and a step containing
`= 12` the step-answer score is 1.0; and the score is 0.0 exactly when the
steps list is empty/absent or the extracted final answer is empty — with
`final_answer` absent, extraction falls back to the last numeric-like
token of the last step and then to the thought process, so absence of the
field alone does not force a zero score. -/
theorem claim_C6_step_answer_characterization :
    ((check_step_answer_consistency attempt12 (extract_final_answer attempt12)).score = 1) ∧
    (∀ (a : Attempt) (ans : String),
      ((attemptSteps a).isEmpty = true ∨ ans.isEmpty = true) →
        (check_step_answer_consistency a ans).score = 0) ∧
    (∀ (a : Attempt) (ans : String),
      (attemptSteps a).isEmpty = false → ans.isEmpty = false →
        (check_step_answer_consistency a ans).score ≠ 0) := by
  refine ⟨by with_unfolding_all decide, ?_, ?_⟩
  · intro a ans h
    unfold check_step_answer_consistency
    rw [if_pos h]
  · intro a ans h1 h2
    unfold check_step_answer_consistency
    rw [if_neg (by simp [h1, h2])]
    dsimp only
    split_ifs <;> norm_num

/-- Witness for claim C6 (amended): an attempt with no steps scores 0; an
attempt with steps and a non-empty extracted answer scores non-zero. -/
theorem claim_C6_witness :
    (check_step_answer_consistency ([] : Attempt) ("7")).score = 0 ∧
    (check_step_answer_consistency attemptNoFinal ("4.0")).score ≠ 0 :=
  ⟨claim_C6_step_answer_characterization.2.1 [] ("7")
      (Or.inl (by with_unfolding_all decide)),
   claim_C6_step_answer_characterization.2.2 attemptNoFinal ("4.0")
      (by with_unfolding_all decide) (by with_unfolding_all decide)⟩

/-- Counterexample to claim C7: with expected answer `"-10"` and student
answer 1000, the code's reasonableness sub-check divides by the signed
expected value, so it holds (`some true`, score 1) although the relative
error `|1000 - (-10)| / |-10| = 101` is nowhere near `< 0.5` — the claim's
"relative error < 0.5" reading is false for negative expected values. -/
theorem claim_C7_counterexample :
    (validate_mathematical_reasoning attempt1000 ("p") ("-10")).reasonable_answer = some true ∧
    (validate_mathematical_reasoning attempt1000 ("p") ("-10")).score = 1 ∧
    parseNumericLike (.vstr ("-10")) = some (-10) ∧
    parseNumericLike (.vstr (extract_final_answer attempt1000)) = some 1000 ∧
    ¬((-10 : Rat) = 0 ∨ |(1000 : Rat) - (-10)| / |(-10 : Rat)| < 1 / 2) := by
  refine ⟨by with_unfolding_all decide, by with_unfolding_all decide,
    by with_unfolding_all decide, by with_unfolding_all decide,
    by with_unfolding_all decide⟩

/-- Claim C7 (amended): in the non-degenerate branch the reasonableness
sub-check holds exactly when both answers parse as numeric-like and either
the expected value is zero or `|student - expected| / expected < 0.5`
with the *signed* expected value as divisor (hence always true when the
expected value is negative); the returned score is the count of true
sub-checks divided by 3; and the degenerate branch scores 0. -/
theorem claim_C7_math_reasoning_characterization :
    (∀ (a : Attempt) (p e : String),
      (attemptSteps a).isEmpty = false → (extract_final_answer a).isEmpty = false →
        ((validate_mathematical_reasoning a p e).reasonable_answer = some true ↔
          (∃ (qe qs : Rat), parseNumericLike (.vstr e) = some qe ∧
            parseNumericLike (.vstr (extract_final_answer a)) = some qs ∧
            (qe = 0 ∨ |qs - qe| / qe < 1 / 2))) ∧
        ((validate_mathematical_reasoning a p e).score =
          ((if (validate_mathematical_reasoning a p e).has_operations = some true then 1 else 0) +
            (if (validate_mathematical_reasoning a p e).has_progression = some true then 1 else 0) +
            (if (validate_mathematical_reasoning a p e).reasonable_answer = some true then (1 : Rat)
              else 0)) / 3)) ∧
    (∀ (a : Attempt) (p e : String),
      ((attemptSteps a).isEmpty = true ∨ (extract_final_answer a).isEmpty = true) →
        (validate_mathematical_reasoning a p e).score = 0) := by
  constructor
  · intro a p e h1 h2
    unfold validate_mathematical_reasoning
    rw [if_neg (by simp [h1, h2])]
    dsimp only
    constructor
    · rcases he : parseNumericLike (.vstr e) with _ | qe <;>
        rcases hs : parseNumericLike (.vstr (extract_final_answer a)) with _ | qs
      · simp
      · simp
      · simp
      · by_cases hqe : qe = 0
        · simp [hqe]
        · simp only [hqe, if_neg, ne_eq, not_false_eq_true, if_true, Option.some.injEq,
            decide_eq_true_eq]
          constructor
          · intro hcl
            exact ⟨qe, qs, rfl, rfl, Or.inr hcl⟩
          · rintro ⟨qe2, qs2, hqe2, hqs2, hor⟩
            cases hqe2
            cases hqs2
            rcases hor with h0 | hcl
            · exact absurd h0 hqe
            · exact hcl
    · simp only [Option.some.injEq]
  · intro a p e h
    unfold validate_mathematical_reasoning
    rw [if_pos h]

/-- Witness for claim C7 (amended) at concrete inputs. -/
theorem claim_C7_witness :
    ((validate_mathematical_reasoning attempt1000 ("p") ("-10")).reasonable_answer = some true ↔
      (∃ (qe qs : Rat), parseNumericLike (.vstr ("-10")) = some qe ∧
        parseNumericLike (.vstr (extract_final_answer attempt1000)) = some qs ∧
        (qe = 0 ∨ |qs - qe| / qe < 1 / 2))) ∧
    (validate_mathematical_reasoning ([] : Attempt) ("p") ("-10")).score = 0 :=
  ⟨(claim_C7_math_reasoning_characterization.1 attempt1000 ("p") ("-10")
      (by with_unfolding_all decide) (by with_unfolding_all decide)).1,
   claim_C7_math_reasoning_characterization.2 [] ("p") ("-10")
      (Or.inl (by with_unfolding_all decide))⟩

end Dashboard.Claims

namespace Dashboard.Claims

open Dashboard Dashboard.Cache Dashboard.Validator Dashboard.Adaptive Dashboard.Orchestrator Dashboard.KeyDeriv

theorem choose_eq_specChoose (cur : String) (m : Metrics) (t : Trend)
    (h : cur ∈ difficulty_levels) :
    (choose_difficulty cur m t).new_difficulty = specChoose cur m t.label := by
  have h3 : cur = ("easy") ∨ cur = ("medium") ∨ cur = ("hard") := by
    simpa [difficulty_levels] using h
  rcases h3 with rfl | rfl | rfl <;>
    · unfold choose_difficulty specChoose
      simp only [difficulty_levels]
      norm_num
      split_ifs <;> simp_all [stepUp, stepDown]

/-- Claim C8: on an empty history the engine recommends `medium` with
confidence 0.4 and trend `insufficient_data`; otherwise, with metrics and
trend computed over at most the last five records, the recommended
difficulty is exactly the spec's priority decision procedure (rules a–e,
first match wins) over accuracy, average/best consistency, trend and the
current level. -/
theorem claim_C8_adaptive_difficulty_decision :
    (∀ (cur : String),
      (calculate_next_difficulty [] cur).recommended_difficulty = ("medium") ∧
      (calculate_next_difficulty [] cur).confidence = 2 / 5 ∧
      (calculate_next_difficulty [] cur).trend = ("insufficient_data")) ∧
    (∀ (hist : List SessionRecord) (cur : String),
      hist ≠ [] → cur ∈ difficulty_levels →
        (calculate_next_difficulty hist cur).recommended_difficulty =
          specChoose cur (extract_metrics (hist.drop (hist.length - 5)))
            (compute_trend (hist.drop (hist.length - 5))).label) := by
  constructor
  · intro cur
    exact ⟨rfl, rfl, rfl⟩
  · intro hist cur hne hmem
    unfold calculate_next_difficulty
    rw [if_neg (by simpa using hne)]
    dsimp only
    exact choose_eq_specChoose cur _ _ hmem

/-- Witness for claim C8 at a concrete five-record history of strong,
explicitly correct sessions at `medium`: the engine steps up to `hard`,
matching the spec decision procedure. -/
theorem claim_C8_witness :
    (calculate_next_difficulty
        [⟨some (9 / 10), some true⟩, ⟨some (8 / 10), some true⟩, ⟨some (9 / 10), some true⟩,
          ⟨some (9 / 10), some true⟩, ⟨some (19 / 20), some true⟩]
        ("medium")).recommended_difficulty =
      specChoose ("medium")
        (extract_metrics
          (([⟨some (9 / 10), some true⟩, ⟨some (8 / 10), some true⟩, ⟨some (9 / 10), some true⟩,
            ⟨some (9 / 10), some true⟩, ⟨some (19 / 20), some true⟩] :
              List SessionRecord).drop
            (([⟨some (9 / 10), some true⟩, ⟨some (8 / 10), some true⟩, ⟨some (9 / 10), some true⟩,
            ⟨some (9 / 10), some true⟩, ⟨some (19 / 20), some true⟩] :
              List SessionRecord).length - 5)))
        (compute_trend
          (([⟨some (9 / 10), some true⟩, ⟨some (8 / 10), some true⟩, ⟨some (9 / 10), some true⟩,
            ⟨some (9 / 10), some true⟩, ⟨some (19 / 20), some true⟩] :
              List SessionRecord).drop
            (([⟨some (9 / 10), some true⟩, ⟨some (8 / 10), some true⟩, ⟨some (9 / 10), some true⟩,
            ⟨some (9 / 10), some true⟩, ⟨some (19 / 20), some true⟩] :
              List SessionRecord).length - 5))).label :=
  claim_C8_adaptive_difficulty_decision.2
    [⟨some (9 / 10), some true⟩, ⟨some (8 / 10), some true⟩, ⟨some (9 / 10), some true⟩,
      ⟨some (9 / 10), some true⟩, ⟨some (19 / 20), some true⟩]
    ("medium") (by simp) (by simp [difficulty_levels])

end Dashboard.Claims

namespace Dashboard.KeyDeriv

open Dashboard

theorem prepareEntries_eq_map (es : List (String × PyVal)) :
    prepareEntries es = es.map (fun kv => (kv.1, prepare_for_cache kv.2)) := by
  induction es with
  | nil => rfl
  | cons kv rest ih =>
    obtain ⟨k, v⟩ := kv
    simp [prepareEntries, ih]

theorem prepareList_eq_map (xs : List PyVal) :
    prepareList xs = xs.map prepare_for_cache := by
  induction xs with
  | nil => rfl
  | cons x rest ih => simp [prepareList, ih]

theorem lookupKey_map_value (es : List (String × PyVal)) (f : PyVal → PyVal) (k : String) :
    lookupKey (es.map (fun kv => (kv.1, f kv.2))) k = (lookupKey es k).map f := by
  induction es with
  | nil => rfl
  | cons kv rest ih =>
    obtain ⟨k2, v⟩ := kv
    by_cases h : k2 = k <;> simp [lookupKey, h, ih]

theorem lookupKey_mem {es : List (String × PyVal)} {k : String} {v : PyVal}
    (h : lookupKey es k = some v) : (k, v) ∈ es := by
  induction es with
  | nil => simp [lookupKey] at h
  | cons kv rest ih =>
    obtain ⟨k2, v2⟩ := kv
    by_cases hk : k2 = k
    · subst hk
      have h2 : v2 = v := by simpa [lookupKey] using h
      subst h2
      exact List.mem_cons_self _ _
    · simp only [lookupKey, if_neg hk] at h
      exact List.mem_cons_of_mem _ (ih h)

theorem lookupKey_append_middle {l1 l2 : List (String × PyVal)} {k : String} {v : PyVal}
    {k2 : String} (h : k2 ≠ k) :
    lookupKey (l1 ++ (k, v) :: l2) k2 = lookupKey (l1 ++ l2) k2 := by
  induction l1 with
  | nil => simp [lookupKey, fun hh => h (Eq.symm hh), Ne.symm h]
  | cons kv rest ih =>
    obtain ⟨k3, v3⟩ := kv
    by_cases hk : k3 = k2 <;> simp [lookupKey, hk, ih]

theorem assoc_perm_of_lookup :
    ∀ (p q : List (String × PyVal)), (p.map Prod.fst).Nodup → (q.map Prod.fst).Nodup →
      p.length = q.length → (∀ kv ∈ p, lookupKey q kv.1 = some kv.2) → p.Perm q := by
  intro p
  induction p with
  | nil =>
    intro q _ _ hlen _
    have : q = [] := List.eq_nil_of_length_eq_zero hlen.symm
    simp [this]
  | cons kv rest ih =>
    intro q hnp hnq hlen hl
    obtain ⟨k, v⟩ := kv
    have hkv : lookupKey q k = some v := hl (k, v) (List.mem_cons_self _ _)
    have hmem : (k, v) ∈ q := lookupKey_mem hkv
    obtain ⟨l1, l2, rfl⟩ := List.append_of_mem hmem
    have hperm_mid : (l1 ++ (k, v) :: l2).Perm ((k, v) :: (l1 ++ l2)) := List.perm_middle
    have hkeysperm : ((l1 ++ (k, v) :: l2).map Prod.fst).Perm
        (k :: ((l1 ++ l2).map Prod.fst)) := by
      have := hperm_mid.map Prod.fst
      simpa using this
    have hnq2 : (k :: ((l1 ++ l2).map Prod.fst)).Nodup := hkeysperm.nodup_iff.mp hnq
    have hknotin : k ∉ (l1 ++ l2).map Prod.fst := (List.nodup_cons.mp hnq2).1
    have hnq3 : ((l1 ++ l2).map Prod.fst).Nodup := (List.nodup_cons.mp hnq2).2
    have hnp2 : (rest.map Prod.fst).Nodup := (List.nodup_cons.mp (by simpa using hnp)).2
    have hknotin_p : k ∉ rest.map Prod.fst := (List.nodup_cons.mp (by simpa using hnp)).1
    have hlen2 : rest.length = (l1 ++ l2).length := by
      have := hperm_mid.length_eq
      simp only [List.length_cons] at hlen this
      omega
    have hl2 : ∀ kv2 ∈ rest, lookupKey (l1 ++ l2) kv2.1 = some kv2.2 := by
      intro kv2 hkv2
      have hne : kv2.1 ≠ k := by
        intro hh
        exact hknotin_p (hh ▸ List.mem_map_of_mem Prod.fst hkv2)
      rw [← lookupKey_append_middle hne]
      exact hl kv2 (List.mem_cons_of_mem _ hkv2)
    have hrest : rest.Perm (l1 ++ l2) := ih (l1 ++ l2) hnp2 hnq3 hlen2 hl2
    exact (hrest.cons (k, v)).trans hperm_mid.symm

end Dashboard.KeyDeriv

namespace Dashboard.KeyDeriv

open Dashboard

theorem sortEntries_perm (es : List (String × PyVal)) : (sortEntries es).Perm es :=
  List.mergeSort_perm es _

theorem sortEntries_sorted (es : List (String × PyVal)) :
    List.Pairwise (fun a b : String × PyVal => a.1 ≤ b.1) (sortEntries es) := by
  have h := @List.sorted_mergeSort (String × PyVal)
    (fun a b : String × PyVal => decide (a.1 ≤ b.1))
    (fun a b c hab hbc => by
      simp only [decide_eq_true_eq] at hab hbc ⊢
      exact le_trans hab hbc)
    (fun a b => by
      simp only [Bool.or_eq_true, decide_eq_true_eq]
      exact le_total a.1 b.1)
    es
  exact h.imp (fun hab => by simpa using hab)

theorem sortEntries_eq_of_perm {p q : List (String × PyVal)} (h : p.Perm q)
    (hnp : (p.map Prod.fst).Nodup) : sortEntries p = sortEntries q := by
  have hnq : (q.map Prod.fst).Nodup := ((h.map Prod.fst).nodup_iff).mp hnp
  have hperm : (sortEntries p).Perm (sortEntries q) :=
    ((sortEntries_perm p).trans h).trans (sortEntries_perm q).symm
  have hkey : ∀ (r : List (String × PyVal)), (r.map Prod.fst).Nodup →
      List.Pairwise (fun a b : String × PyVal => a.1 < b.1) (sortEntries r) := by
    intro r hnr
    have hsortednodup : ((sortEntries r).map Prod.fst).Nodup :=
      (((sortEntries_perm r).map Prod.fst).nodup_iff).mpr hnr
    have hne : List.Pairwise (fun a b : String × PyVal => a.1 ≠ b.1) (sortEntries r) :=
      (List.pairwise_map).mp hsortednodup
    exact ((sortEntries_sorted r).and hne).imp
      (fun hab => lt_of_le_of_ne hab.1 hab.2)
  haveI : IsAntisymm (String × PyVal) (fun a b => a.1 < b.1) :=
    ⟨fun a b h1 h2 => absurd h2 (not_lt_of_lt h1)⟩
  exact List.eq_of_perm_of_sorted hperm (hkey p hnp) (hkey q hnq)

theorem keyOrderEquivEntries_lookup {es fs : List (String × PyVal)}
    (h : keyOrderEquivEntries es fs = true) :
    ∀ kv ∈ es, ∃ w, lookupKey fs kv.1 = some w ∧ keyOrderEquiv kv.2 w = true := by
  induction es with
  | nil => intro kv hkv; simp at hkv
  | cons kv2 rest ih =>
    obtain ⟨k, v⟩ := kv2
    intro kv hkv
    rw [keyOrderEquivEntries] at h
    rw [Bool.and_eq_true] at h
    rcases List.mem_cons.mp hkv with rfl | hmem
    · rcases hw : lookupKey fs k with _ | w
      · rw [hw] at h
        simp at h
      · rw [hw] at h
        exact ⟨w, rfl, h.1⟩
    · exact ih h.2 kv hmem

theorem sizeOf_pos_pyval (v : PyVal) : 0 < sizeOf v := by
  cases v <;> simp_arith

theorem sizeOf_mem_list_le {x : PyVal} {xs : List PyVal} (h : x ∈ xs) {n : Nat}
    (hsz : sizeOf (PyVal.vlist xs) ≤ n + 1) : sizeOf x ≤ n := by
  have h1 := List.sizeOf_lt_of_mem h
  simp only [PyVal.vlist.sizeOf_spec] at hsz
  omega

theorem sizeOf_mem_set_le {x : PyVal} {xs : List PyVal} (h : x ∈ xs) {n : Nat}
    (hsz : sizeOf (PyVal.vset xs) ≤ n + 1) : sizeOf x ≤ n := by
  have h1 := List.sizeOf_lt_of_mem h
  simp only [PyVal.vset.sizeOf_spec] at hsz
  omega

theorem sizeOf_mem_dict_le {k : String} {v : PyVal} {es : List (String × PyVal)}
    (h : (k, v) ∈ es) {n : Nat} (hsz : sizeOf (PyVal.vdict es) ≤ n + 1) : sizeOf v ≤ n := by
  have h1 := List.sizeOf_lt_of_mem h
  have h2 : sizeOf (k, v) = 1 + sizeOf k + sizeOf v := by simp
  simp only [PyVal.vdict.sizeOf_spec] at hsz
  omega

end Dashboard.KeyDeriv

namespace Dashboard.KeyDeriv

open Dashboard

theorem prepareEntries_keys (gs : List (String × PyVal)) :
    (prepareEntries gs).map Prod.fst = gs.map Prod.fst := by
  rw [prepareEntries_eq_map, List.map_map]
  rfl

theorem prepareList_congr {xs ys : List PyVal}
    (hrec : ∀ x ∈ xs, ∀ w : PyVal, keyOrderEquiv x w = true →
      prepare_for_cache x = prepare_for_cache w)
    (h : keyOrderEquivList xs ys = true) : prepareList xs = prepareList ys := by
  induction xs generalizing ys with
  | nil =>
    cases ys with
    | nil => rfl
    | cons y ys => simp [keyOrderEquivList] at h
  | cons x xs ih =>
    cases ys with
    | nil => simp [keyOrderEquivList] at h
    | cons y ys =>
      rw [keyOrderEquivList, Bool.and_eq_true] at h
      rw [prepareList, prepareList]
      rw [hrec x (List.mem_cons_self _ _) y h.1,
        ih (fun x2 hx2 w2 hk2 => hrec x2 (List.mem_cons_of_mem _ hx2) w2 hk2) h.2]

theorem prepare_respects_equiv :
    ∀ (n : Nat) (v w : PyVal), sizeOf v ≤ n → keyOrderEquiv v w = true →
      prepare_for_cache v = prepare_for_cache w := by
  intro n
  induction n with
  | zero =>
    intro v w hsz _
    exact absurd hsz (by have := sizeOf_pos_pyval v; omega)
  | succ n ih =>
    intro v w hsz hk
    cases v with
    | vstr a =>
      cases w <;> simp only [keyOrderEquiv, decide_eq_true_eq, Bool.false_eq_true] at hk
      rw [hk]
    | vint a =>
      cases w <;> simp only [keyOrderEquiv, decide_eq_true_eq, Bool.false_eq_true] at hk
      rw [hk]
    | vfloat a =>
      cases w <;> simp only [keyOrderEquiv, decide_eq_true_eq, Bool.false_eq_true] at hk
      rw [hk]
    | vbool a =>
      cases w <;> simp only [keyOrderEquiv, decide_eq_true_eq, Bool.false_eq_true] at hk
      rw [hk]
    | vnone =>
      cases w <;> simp only [keyOrderEquiv, decide_eq_true_eq, Bool.false_eq_true] at hk
      rfl
    | vlist xs =>
      cases w <;> simp only [keyOrderEquiv, decide_eq_true_eq, Bool.false_eq_true] at hk
      case vlist ys =>
        rw [prepare_for_cache, prepare_for_cache]
        exact congrArg PyVal.vlist
          (prepareList_congr
            (fun x hx w2 hk2 => ih x w2 (sizeOf_mem_list_le hx hsz) hk2) hk)
    | vset xs =>
      cases w <;> simp only [keyOrderEquiv, decide_eq_true_eq, Bool.false_eq_true] at hk
      case vset ys =>
        rw [prepare_for_cache, prepare_for_cache]
        rw [prepareList_congr
          (fun x hx w2 hk2 => ih x w2 (sizeOf_mem_set_le hx hsz) hk2) hk]
    | vdict es =>
      cases w <;> simp only [keyOrderEquiv, Bool.and_eq_true, decide_eq_true_eq,
        Bool.false_eq_true] at hk
      case vdict fs =>
        obtain ⟨⟨⟨hnes, hnfs⟩, hlen⟩, hent⟩ := hk
        rw [prepare_for_cache, prepare_for_cache]
        apply congrArg PyVal.vdict
        apply sortEntries_eq_of_perm
        · apply assoc_perm_of_lookup
          · rw [prepareEntries_keys]
            exact hnes
          · rw [prepareEntries_keys]
            exact hnfs
          · rw [prepareEntries_eq_map, prepareEntries_eq_map]
            simpa using hlen
          · intro kv hkv
            rw [prepareEntries_eq_map] at hkv
            obtain ⟨⟨k2, v2⟩, hkv2, rfl⟩ := List.mem_map.mp hkv
            obtain ⟨w2, hw2, hkw2⟩ := keyOrderEquivEntries_lookup hent (k2, v2) hkv2
            rw [prepareEntries_eq_map, lookupKey_map_value, hw2]
            dsimp only
            rw [ih v2 w2 (sizeOf_mem_dict_le hkv2 hsz) hkw2]
            rfl
        · rw [prepareEntries_keys]
          exact hnes

end Dashboard.KeyDeriv

namespace Dashboard.Claims

open Dashboard Dashboard.KeyDeriv

/-- Claim C4: cache-key derivation is order-independent over mapping keys
and deterministic.  For any two argument structures that are equal except
for the insertion order of keys in (nested) mappings — `keyOrderEquiv` —
the derived key string is identical, for every choice of the digest
function that models the final SHA-256 hex step (each key is the digest of
the sorted compact serialization of the normalized payload, so equal
serializations give equal keys; determinism is immediate since the
derivation is a pure function of its arguments). -/
theorem claim_C4_cache_key_order_independence :
    ∀ (digest : String → String) (handler_qualname handler_module : String)
      (args1 args2 kwargs1 kwargs2 : PyVal),
      keyOrderEquiv args1 args2 = true → keyOrderEquiv kwargs1 kwargs2 = true →
      make_cache_key digest handler_qualname handler_module args1 kwargs1 =
        make_cache_key digest handler_qualname handler_module args2 kwargs2 := by
  intro digest hq hm a1 a2 kw1 kw2 h1 h2
  unfold make_cache_key
  rw [prepare_respects_equiv (sizeOf a1) a1 a2 le_rfl h1,
    prepare_respects_equiv (sizeOf kw1) kw1 kw2 le_rfl h2]

/-- Witness for claim C4: two nested dicts differing only in key insertion
order (at both nesting levels) produce the same cache key. -/
theorem claim_C4_witness :
    make_cache_key (fun s => s) ("app.generate") ("app.services")
      (.vdict [(("a"), .vint 1), (("b"), .vdict [(("x"), .vint 2), (("y"), .vint 3)])])
      (.vdict [(("t"), .vfloat (1 / 2))]) =
    make_cache_key (fun s => s) ("app.generate") ("app.services")
      (.vdict [(("b"), .vdict [(("y"), .vint 3), (("x"), .vint 2)]), (("a"), .vint 1)])
      (.vdict [(("t"), .vfloat (1 / 2))]) :=
  claim_C4_cache_key_order_independence (fun s => s) ("app.generate") ("app.services")
    (.vdict [(("a"), .vint 1), (("b"), .vdict [(("x"), .vint 2), (("y"), .vint 3)])])
    (.vdict [(("b"), .vdict [(("y"), .vint 3), (("x"), .vint 2)]), (("a"), .vint 1)])
    (.vdict [(("t"), .vfloat (1 / 2))]) (.vdict [(("t"), .vfloat (1 / 2))])
    (by with_unfolding_all decide) (by with_unfolding_all decide)

end Dashboard.Claims
